import Mathlib

/-!
# Verification of the jscom-python-common token-validation and pagination helpers

This file gives a shallow embedding, in Lean 4, of the two components of the
`jscom_common` library that carry logic:

* `jscom_common/auth/cognito.py` — `get_jwks` (key-set resolver with a
  process-wide cache) and `validate_jwt_token` (bearer-token verifier), and
* `jscom_common/dynamodb/helpers.py` — `encode_pagination_token` /
  `decode_pagination_token` (JSON-then-base64 pagination cursor codec).

Python strings are modelled as Lean `String` (for the auth component, whose
string work is ASCII) or as lists of Unicode code points (for the codec, where
UTF-8 encoding matters).  Python dictionaries appear as association lists,
exceptions as an explicit error type, the `requests` network call as an oracle
function, and the process-global JWKS cache as explicitly threaded state.  The
external `jose` JWT engine is modelled from the specification's description of
its contract (signature/algorithm/audience/issuer/expiry checks), since it is
an external collaborator, not code of this repository.
-/

namespace JscomCommon

/-! ## Python primitives

Helpers that mirror the Python expressions used by the source: falsiness of
optional strings, `a or b`, `dict.get`, `os.environ.get`, `str.split()` (split
on whitespace runs, dropping empties) and ASCII `str.lower()`. -/

/-- `d.get(k)` on a Python dict modelled as an association list. -/
def pyDictGet (d : List (String × String)) (k : String) : Option String :=
  (d.find? (fun p => p.1 = k)).map (fun p => p.2)

/-- `a or b` where both operands are `str | None`; the empty string is falsy. -/
def pyOrOpt (a b : Option String) : Option String :=
  match a with
  | some s => if s = "" then b else some s
  | none => b

/-- Python truthiness of a `str | None` value. -/
def pyTruthy : Option String → Bool
  | none => false
  | some s => s ≠ ""

/-- `a or b` where `a : str | None` and `b : str`. -/
def pyOrStr (a : Option String) (b : String) : String :=
  match a with
  | some s => if s = "" then b else s
  | none => b

/-- `os.environ.get(k, d)` with the environment as an association list. -/
def envGet (env : List (String × String)) (k d : String) : String :=
  match pyDictGet env k with
  | some v => v
  | none => d

/-- The whitespace characters of Python's `str.split()` (ASCII fragment). -/
def pyIsSpace (c : Char) : Bool :=
  c = ' ' ∨ c = '\t' ∨ c = '\n' ∨ c = '\r' ∨ c = '\x0b' ∨ c = '\x0c'

/-- Worker for `pySplit`: accumulate the current word and finished words. -/
def splitCharsGo (cur : List Char) (acc : List (List Char)) : List Char → List (List Char)
  | [] => (cur.reverse :: acc).reverse
  | c :: rest =>
    if pyIsSpace c then splitCharsGo [] (cur.reverse :: acc) rest
    else splitCharsGo (c :: cur) acc rest

/-- Python `s.split()` with no separator: split on whitespace runs and drop
empty pieces. -/
def pySplit (s : String) : List String :=
  ((splitCharsGo [] [] s.data).filter (· ≠ [])).map List.asString

/-- Python `s.lower()` (ASCII fragment, which is all the source compares). -/
def pyLower (s : String) : String :=
  (s.data.map Char.toLower).asString

/-! ## Data model of the auth component -/

/-- One JWKS entry: a dict with at least a `kid`; the remaining RSA fields
(`kty`, `n`, `e`, …) are abstracted into `material`. -/
structure Jwk where
  kid : String
  material : String
deriving DecidableEq, Repr

/-- The key set: the parsed JWKS body, a dict with field `keys`. -/
structure Jwks where
  keys : List Jwk
deriving DecidableEq, Repr

/-- The Python exceptions that `cognito.py` raises or handles. -/
inductive PyExc where
  | unauthorizedError (msg : String)
  | valueError (msg : String)
  | jwtError (msg : String)
  | requestException (msg : String)
deriving DecidableEq, Repr

/-- The network: `requests.get(url)` + `raise_for_status()` + `.json()`,
as an oracle from the URL to either a transport failure or a parsed body. -/
abbrev FetchOracle := String → Except String Jwks

/-- The JWKS endpoint URL built by `get_jwks`. -/
def jwksUrl (region pool : String) : String :=
  "https://cognito-idp." ++ region ++ ".amazonaws.com/" ++ pool ++ "/.well-known/jwks.json"

/-- Message of the `ValueError` raised for a missing user pool id. -/
def userPoolIdRequiredMsg : String :=
  "COGNITO_USER_POOL_ID environment variable or user_pool_id parameter is required"

/-- Message of the `ValueError` raised for a missing app client id. -/
def appClientIdRequiredMsg : String :=
  "COGNITO_APP_CLIENT_ID environment variable or app_client_id parameter is required"

/-- `get_jwks` from `cognito.py`.  The process-global `_jwks_cache` is passed
in and returned explicitly; the third component counts outbound network
fetches performed by this call (0 or 1). -/
def get_jwks (region user_pool_id : Option String) (env : List (String × String))
    (fetch : FetchOracle) (cache : Option Jwks) :
    Except PyExc Jwks × Option Jwks × Nat :=
  match cache with
  | some jwks => (.ok jwks, some jwks, 0)
  | none =>
    let cognito_region := pyOrStr region (envGet env "COGNITO_REGION" "us-west-2")
    let cognito_user_pool_id := pyOrStr user_pool_id (envGet env "COGNITO_USER_POOL_ID" "")
    if cognito_user_pool_id = "" then
      (.error (.valueError userPoolIdRequiredMsg), none, 0)
    else
      match fetch (jwksUrl cognito_region cognito_user_pool_id) with
      | .error e => (.error (.requestException e), none, 1)
      | .ok jwks => (.ok jwks, some jwks, 1)

/-- Run a sequence of `get_jwks` calls (each with its own `region` /
`user_pool_id` arguments) in one process, threading the cache and summing the
fetch counts. -/
def run_get_jwks_calls (env : List (String × String)) (fetch : FetchOracle) :
    Option Jwks → List (Option String × Option String) →
    List (Except PyExc Jwks) × Option Jwks × Nat
  | cache, [] => ([], cache, 0)
  | cache, (r, p) :: calls =>
    let first := get_jwks r p env fetch cache
    let rest := run_get_jwks_calls env fetch first.2.1 calls
    (first.1 :: rest.1, rest.2.1, first.2.2 + rest.2.2)

/-! ## Model of the external JOSE engine

`python-jose` is an external collaborator.  Following the specification's
description of its contract, a token is read as: the header's `kid` and `alg`,
the payload (claim set), and the key that actually signed it (`none` when the
signature is corrupt). -/

/-- The decoded claim set of a token: the registered claims the engine checks
plus the remaining payload entries. -/
structure Claims where
  aud : String
  iss : String
  exp : Int
  payload : List (String × String)
deriving DecidableEq, Repr

/-- Modelled from the spec: the JOSE engine's reading of a compact token —
header `kid`/`alg`, payload, and which key material (if any) its signature
verifies under. -/
structure Token where
  headerKid : Option String
  headerAlg : String
  claims : Claims
  signedWith : Option String
deriving DecidableEq, Repr

/-- An interpretation of token strings by the engine: `none` means the string
is not parseable as a token at all. -/
abbrev JoseModel := String → Option Token

/-- Modelled from the spec: `jose.jwt.decode(token, key, algorithms, audience,
issuer)` — verify the signature with `key`, then the algorithm, expiry,
audience and issuer, and on success return the claim set unchanged. -/
def jwtDecode (t : Token) (key : Jwk) (algorithms : List String)
    (audience issuer : String) (now : Int) : Except PyExc Claims :=
  if t.signedWith ≠ some key.material then
    .error (.jwtError "Signature verification failed.")
  else if ¬ algorithms.contains t.headerAlg then
    .error (.jwtError "The specified alg value is not allowed")
  else if t.claims.exp ≤ now then
    .error (.jwtError "Signature has expired.")
  else if t.claims.aud ≠ audience then
    .error (.jwtError "Invalid audience")
  else if t.claims.iss ≠ issuer then
    .error (.jwtError "Invalid issuer")
  else
    .ok t.claims

/-- The `for jwk_key in jwks["keys"]: if jwk_key["kid"] == kid: … break` loop:
first entry whose `kid` equals the token header's optional `kid`. -/
def findKey : List Jwk → Option String → Option Jwk
  | [], _ => none
  | k :: rest, kid => if some k.kid = kid then some k else findKey rest kid

/-- The `except` clauses of `validate_jwt_token`: `UnauthorizedError` is
re-raised unchanged, `JWTError` becomes the generic invalid-token denial, and
any other exception becomes the generic failure denial. -/
def classifyTryExc : PyExc → PyExc
  | .unauthorizedError m => .unauthorizedError m
  | .jwtError _ => .unauthorizedError "Invalid or expired token"
  | .valueError _ => .unauthorizedError "Token validation failed"
  | .requestException _ => .unauthorizedError "Token validation failed"

/-- The body of the `try` block of `validate_jwt_token`: fetch the key set,
read the unverified header's `kid`, scan for the key, verify.  Errors are the
raw exceptions before the `except` clauses classify them. -/
def validateTryBody (token : String)
    (cognito_region cognito_user_pool_id cognito_app_client_id : String)
    (env : List (String × String)) (jose : JoseModel) (fetch : FetchOracle)
    (cache : Option Jwks) (now : Int) :
    Except PyExc Claims × Option Jwks × Nat :=
  match get_jwks (some cognito_region) (some cognito_user_pool_id) env fetch cache with
  | (.error e, cache1, n) => (.error e, cache1, n)
  | (.ok jwks, cache1, n) =>
    match jose token with
    | none => (.error (.jwtError "Error decoding token headers."), cache1, n)
    | some t =>
      match findKey jwks.keys t.headerKid with
      | none => (.error (.unauthorizedError "Invalid token"), cache1, n)
      | some key =>
        (jwtDecode t key ["RS256"] cognito_app_client_id
            ("https://cognito-idp." ++ cognito_region ++ ".amazonaws.com/" ++
              cognito_user_pool_id) now,
          cache1, n)

/-- `validate_jwt_token` from `cognito.py`.  `event` is the API Gateway event
restricted to its optional `headers` field; `env` is the process environment;
`jose` and `fetch` model the external JWT engine and the network; `cache` is
the process-global `_jwks_cache`, threaded through; `now` is the clock the
engine checks expiry against.  Returns the call's outcome, the new cache, and
the number of network fetches performed. -/
def validate_jwt_token (event : Option (List (String × String)))
    (region user_pool_id app_client_id : Option String)
    (env : List (String × String)) (jose : JoseModel) (fetch : FetchOracle)
    (cache : Option Jwks) (now : Int) :
    Except PyExc Claims × Option Jwks × Nat :=
  let headers := event.getD []
  let auth_header := pyOrOpt (pyDictGet headers "authorization") (pyDictGet headers "Authorization")
  if ¬ pyTruthy auth_header then
    (.error (.unauthorizedError "Missing Authorization header"), cache, 0)
  else
    let parts := pySplit (auth_header.getD "")
    if parts.length ≠ 2 ∨ pyLower (parts.headD "") ≠ "bearer" then
      (.error (.unauthorizedError "Invalid Authorization header format"), cache, 0)
    else
      let token := parts.getD 1 ""
      let cognito_region := pyOrStr region (envGet env "COGNITO_REGION" "us-west-2")
      let cognito_user_pool_id := pyOrStr user_pool_id (envGet env "COGNITO_USER_POOL_ID" "")
      let cognito_app_client_id := pyOrStr app_client_id (envGet env "COGNITO_APP_CLIENT_ID" "")
      if cognito_user_pool_id = "" then
        (.error (.valueError userPoolIdRequiredMsg), cache, 0)
      else if cognito_app_client_id = "" then
        (.error (.valueError appClientIdRequiredMsg), cache, 0)
      else
        let res := validateTryBody token cognito_region cognito_user_pool_id
          cognito_app_client_id env jose fetch cache now
        (res.1.mapError classifyTryExc, res.2.1, res.2.2)

/-- Decidable equality on `Except`, for evaluating concrete runs. -/
instance {ε α : Type} [DecidableEq ε] [DecidableEq α] : DecidableEq (Except ε α) := fun a b =>
  match a, b with
  | .ok x, .ok y =>
    if h : x = y then isTrue (by rw [h]) else isFalse (fun c => h (Except.ok.inj c))
  | .error x, .error y =>
    if h : x = y then isTrue (by rw [h]) else isFalse (fun c => h (Except.error.inj c))
  | .ok _, .error _ => isFalse (fun c => Except.noConfusion c)
  | .error _, .ok _ => isFalse (fun c => Except.noConfusion c)

/-! ## Concrete fixtures used by the witness theorems -/

/-- A concrete claim set: audience/issuer for pool `pool1`, client `client1`
in region `reg1`, expiring at time 100. -/
def wClaims : Claims :=
  ⟨"client1", "https://cognito-idp.reg1.amazonaws.com/pool1", 100,
    [("sub", "user-123"), ("cognito:username", "alice")]⟩

/-- A concrete token carrying `wClaims`, signed with material `mat1`. -/
def wToken : Token := ⟨some "kid1", "RS256", wClaims, some "mat1"⟩

/-- The key set entry whose material signs `wToken`. -/
def wJwk : Jwk := ⟨"kid1", "mat1"⟩

/-- A concrete key set holding exactly `wJwk`. -/
def wJwks : Jwks := ⟨[wJwk]⟩

/-- A concrete engine interpretation: the string `"T"` reads as `wToken`. -/
def wJose : JoseModel := fun s => if s = "T" then some wToken else none

/-- A key set with two entries sharing the kid `kid1`; only the first holds
the material that signs `wToken`. -/
def wJwksDup : Jwks := ⟨[⟨"kid1", "mat1"⟩, ⟨"kid1", "other"⟩]⟩

/-- A fetch oracle for a downed network. -/
def wFetchFail : FetchOracle := fun _ => .error "connection error"

/-- Headers carrying the bearer token string `"T"`. -/
def wHeaders : List (String × String) := [("Authorization", "Bearer T")]

/-! ## The pagination-token codec (`dynamodb/helpers.py`)

`encode_pagination_token` is `json.dumps`, then UTF-8 encode, then base64,
then ASCII-decode; `decode_pagination_token` is the reverse chain.  Here
Python strings are lists of Unicode code points and Python bytes are lists of
byte values, so the stdlib collaborators (`json`, `base64`, `str.encode`,
`bytes.decode`) are embedded at full depth.  JSON values carry integers (the
numeric fragment the pagination keys use; machine floats are out of scope of
the embedding). -/

mutual
/-- A JSON value as `json.dumps` accepts it: null, booleans, integers,
strings (lists of code points), arrays and objects. -/
inductive Json where
  | null
  | bool (b : Bool)
  | int (i : Int)
  | str (s : List Nat)
  | arr (xs : JsonList)
  | obj (fs : JsonFields)
deriving DecidableEq, Repr
/-- A list of JSON values (array elements), as a mutual inductive. -/
inductive JsonList where
  | nil
  | cons (hd : Json) (tl : JsonList)
deriving DecidableEq, Repr
/-- The entries of a JSON object, in insertion order, as a mutual
inductive.  This is the model of a Python `dict` to be serialized. -/
inductive JsonFields where
  | nil
  | cons (k : List Nat) (v : Json) (tl : JsonFields)
deriving DecidableEq, Repr
end

/-- A code point is a Unicode scalar value: representable in a JSON text and
encodable by `str.encode("utf-8")` (below `0x110000` and not a surrogate). -/
def scalarOK (c : Nat) : Bool :=
  decide (c < 1114112) && (decide (c < 55296) || decide (57344 ≤ c))

/-- All code points of the string are Unicode scalar values. -/
def strWF (s : List Nat) : Bool := s.all scalarOK

mutual
/-- Well-formedness of a JSON value: every string is made of Unicode scalar
values. -/
def jsonWF : Json → Bool
  | .null => true
  | .bool _ => true
  | .int _ => true
  | .str s => strWF s
  | .arr xs => listWF xs
  | .obj fs => fieldsWF fs
/-- Well-formedness of array elements. -/
def listWF : JsonList → Bool
  | .nil => true
  | .cons x xs => jsonWF x && listWF xs
/-- Well-formedness of object entries. -/
def fieldsWF : JsonFields → Bool
  | .nil => true
  | .cons k v fs => strWF k && jsonWF v && fieldsWF fs
end

/-- Lowercase hexadecimal digit, as `json.dumps` emits in `\uXXXX` escapes. -/
def hexDigit (n : Nat) : Nat := if n < 10 then 48 + n else 87 + n

/-- Value of a hexadecimal digit character (either case), as `json.loads`
accepts. -/
def hexVal (c : Nat) : Option Nat :=
  if 48 ≤ c ∧ c ≤ 57 then some (c - 48)
  else if 97 ≤ c ∧ c ≤ 102 then some (c - 87)
  else if 65 ≤ c ∧ c ≤ 70 then some (c - 55)
  else none

/-- The four hex digits of a code unit below `0x10000`. -/
def hex4 (c : Nat) : List Nat :=
  [hexDigit (c / 4096 % 16), hexDigit (c / 256 % 16), hexDigit (c / 16 % 16), hexDigit (c % 16)]

/-- `json.dumps` escaping of one code point with `ensure_ascii=True` (the
default): the two-character escapes, literal ASCII `0x20`–`0x7e`, `\uXXXX`
for everything else, with a surrogate pair above `0xFFFF`. -/
def escapeChar (c : Nat) : List Nat :=
  if c = 34 then [92, 34]
  else if c = 92 then [92, 92]
  else if c = 8 then [92, 98]
  else if c = 9 then [92, 116]
  else if c = 10 then [92, 110]
  else if c = 12 then [92, 102]
  else if c = 13 then [92, 114]
  else if 32 ≤ c ∧ c ≤ 126 then [c]
  else if c < 65536 then 92 :: 117 :: hex4 c
  else (92 :: 117 :: hex4 (55296 + (c - 65536) / 1024))
    ++ (92 :: 117 :: hex4 (56320 + (c - 65536) % 1024))

/-- Body of a serialized JSON string: each character escaped, then the
closing quote. -/
def escBody : List Nat → List Nat
  | [] => [34]
  | c :: rest => escapeChar c ++ escBody rest

/-- A serialized JSON string: opening quote, escaped body, closing quote. -/
def escapeString (s : List Nat) : List Nat := 34 :: escBody s

/-- Decimal digits of `n`, most significant first, prepended to `acc`
(fuel-driven so the definition computes by kernel reduction). -/
def natStrAux : Nat → Nat → List Nat → List Nat
  | 0, _, acc => acc
  | fuel + 1, n, acc => if n = 0 then acc else natStrAux fuel (n / 10) ((48 + n % 10) :: acc)

/-- Decimal representation of a natural number. -/
def natStr (n : Nat) : List Nat := if n = 0 then [48] else natStrAux n n []

/-- `repr` of a Python integer, as `json.dumps` emits it. -/
def intStr (i : Int) : List Nat := if i < 0 then 45 :: natStr i.natAbs else natStr i.toNat

mutual
/-- `json.dumps` with its default separators `", "` and `": "` and
`ensure_ascii=True`, emitting the ASCII code points of the JSON text. -/
def dumpJson : Json → List Nat
  | .null => [110, 117, 108, 108]
  | .bool true => [116, 114, 117, 101]
  | .bool false => [102, 97, 108, 115, 101]
  | .int i => intStr i
  | .str s => escapeString s
  | .arr .nil => [91, 93]
  | .arr (.cons x xs) => 91 :: dumpJson x ++ dumpArrTail xs ++ [93]
  | .obj .nil => [123, 125]
  | .obj (.cons k v fs) =>
    123 :: escapeString k ++ (58 :: 32 :: dumpJson v) ++ dumpObjTail fs ++ [125]
/-- The remaining array elements, each preceded by `", "`. -/
def dumpArrTail : JsonList → List Nat
  | .nil => []
  | .cons x xs => 44 :: 32 :: dumpJson x ++ dumpArrTail xs
/-- The remaining object entries, each preceded by `", "`. -/
def dumpObjTail : JsonFields → List Nat
  | .nil => []
  | .cons k v fs => 44 :: 32 :: escapeString k ++ (58 :: 32 :: dumpJson v) ++ dumpObjTail fs
end

mutual
/-- Recursion budget a value needs from the parser. -/
def jsize : Json → Nat
  | .null => 1
  | .bool _ => 1
  | .int _ => 1
  | .str _ => 1
  | .arr xs => lsize xs + 1
  | .obj fs => fsize fs + 1
/-- Budget for the elements of an array. -/
def lsize : JsonList → Nat
  | .nil => 0
  | .cons x xs => jsize x + lsize xs + 1
/-- Budget for the entries of an object. -/
def fsize : JsonFields → Nat
  | .nil => 0
  | .cons _ v fs => jsize v + fsize fs + 1
end

/-- Skip JSON insignificant whitespace. -/
def skipWs : List Nat → List Nat
  | [] => []
  | c :: rest => if c = 32 ∨ c = 9 ∨ c = 10 ∨ c = 13 then skipWs rest else c :: rest

/-- Merge an escape-produced high surrogate immediately followed by a low
surrogate into one code point, left to right, as `json.loads` does when it
reads `\uXXXX` escapes. -/
def combineSurrogates : List Nat → List Nat
  | h :: l :: rest =>
    if 55296 ≤ h ∧ h < 56320 ∧ 56320 ≤ l ∧ l < 57344 then
      ((h - 55296) * 1024 + (l - 56320) + 65536) :: combineSurrogates rest
    else h :: combineSurrogates (l :: rest)
  | l => l

/-- Parse the body of a JSON string after the opening quote, per
`json.loads`: the short escapes, `\uXXXX` escapes (as raw UTF-16 code units;
`combineSurrogates` then merges the pairs), literal characters, rejecting raw
control characters. -/
def parseStringBody : List Nat → Option (List Nat × List Nat)
  | [] => none
  | 34 :: rest => some ([], rest)
  | 92 :: 117 :: a :: b :: c :: d :: rest =>
    (match hexVal a, hexVal b, hexVal c, hexVal d with
    | some va, some vb, some vc, some vd =>
      match parseStringBody rest with
      | some (s, r) => some ((va * 4096 + vb * 256 + vc * 16 + vd) :: s, r)
      | none => none
    | _, _, _, _ => none)
  | 92 :: e :: rest =>
    (match
      (if e = 34 then some 34
       else if e = 92 then some 92
       else if e = 47 then some 47
       else if e = 98 then some 8
       else if e = 116 then some 9
       else if e = 110 then some 10
       else if e = 102 then some 12
       else if e = 114 then some 13
       else none : Option Nat) with
    | some c =>
      match parseStringBody rest with
      | some (s, r) => some (c :: s, r)
      | none => none
    | none => none)
  | c :: rest =>
    if c < 32 then none
    else
      match parseStringBody rest with
      | some (s, r) => some (c :: s, r)
      | none => none

/-- The UTF-16 code units that `json.dumps` writes (as escapes) for one code
point: the point itself below `0x10000`, else its surrogate pair. -/
def unitsOf (c : Nat) : List Nat :=
  if c < 65536 then [c]
  else [55296 + (c - 65536) / 1024, 56320 + (c - 65536) % 1024]

/-- All the code units of a string's serialization. -/
def unitsList : List Nat → List Nat
  | [] => []
  | c :: rest => unitsOf c ++ unitsList rest

/-- The remainder does not start with a decimal digit (so a number parse
stops exactly at the boundary). -/
def notDigitStart : List Nat → Prop
  | [] => True
  | c :: _ => ¬(48 ≤ c ∧ c ≤ 57)

/-- The remainder after a serialized value inside a JSON text: empty or
starting with a separator or closer. -/
def restOK : List Nat → Prop
  | [] => True
  | c :: _ => c = 44 ∨ c = 93 ∨ c = 125

/-- Take the maximal leading run of decimal digits. -/
def takeDigits : List Nat → List Nat × List Nat
  | [] => ([], [])
  | c :: rest =>
    if 48 ≤ c ∧ c ≤ 57 then
      match takeDigits rest with
      | (ds, r) => (c :: ds, r)
    else ([], c :: rest)

/-- Numeric value of a run of decimal digit characters. -/
def digitsVal (ds : List Nat) : Nat := ds.foldl (fun v c => v * 10 + (c - 48)) 0

/-- Parse the elements of a non-empty JSON array after the opening bracket,
using `p` for each element; `", "`-separated, closed by `]`. -/
def parseItems (p : List Nat → Option (Json × List Nat)) :
    Nat → List Nat → Option (JsonList × List Nat)
  | 0, _ => none
  | fuel + 1, input =>
    match p input with
    | none => none
    | some (v, r) =>
      match skipWs r with
      | 44 :: r2 =>
        match parseItems p fuel r2 with
        | some (vs, r3) => some (.cons v vs, r3)
        | none => none
      | 93 :: r2 => some (.cons v .nil, r2)
      | _ => none

/-- Parse the entries of a non-empty JSON object after the opening brace,
using `p` for each value. -/
def parseFields (p : List Nat → Option (Json × List Nat)) :
    Nat → List Nat → Option (JsonFields × List Nat)
  | 0, _ => none
  | fuel + 1, input =>
    match skipWs input with
    | 34 :: r =>
      (match parseStringBody r with
      | none => none
      | some (k, r1) =>
        match skipWs r1 with
        | 58 :: r2 =>
          (match p r2 with
          | none => none
          | some (v, r3) =>
            match skipWs r3 with
            | 44 :: r4 =>
              (match parseFields p fuel r4 with
              | some (fs, r5) => some (.cons (combineSurrogates k) v fs, r5)
              | none => none)
            | 125 :: r4 => some (.cons (combineSurrogates k) v .nil, r4)
            | _ => none)
        | _ => none)
    | _ => none

/-- Recursive-descent JSON parser (fuel-driven): returns the value and the
unconsumed remainder. -/
def parseJson : Nat → List Nat → Option (Json × List Nat)
  | 0, _ => none
  | fuel + 1, input =>
    match skipWs input with
    | 110 :: 117 :: 108 :: 108 :: r => some (.null, r)
    | 116 :: 114 :: 117 :: 101 :: r => some (.bool true, r)
    | 102 :: 97 :: 108 :: 115 :: 101 :: r => some (.bool false, r)
    | 34 :: r =>
      (match parseStringBody r with
      | some (s, r1) => some (.str (combineSurrogates s), r1)
      | none => none)
    | 45 :: r =>
      (match takeDigits r with
      | ([], _) => none
      | (ds, r2) => some (.int (-(digitsVal ds : Int)), r2))
    | 91 :: r =>
      (match skipWs r with
      | 93 :: r2 => some (.arr .nil, r2)
      | r1 =>
        match parseItems (parseJson fuel) fuel r1 with
        | some (xs, r2) => some (.arr xs, r2)
        | none => none)
    | 123 :: r =>
      (match skipWs r with
      | 125 :: r2 => some (.obj .nil, r2)
      | r1 =>
        match parseFields (parseJson fuel) fuel r1 with
        | some (fs, r2) => some (.obj fs, r2)
        | none => none)
    | c :: r =>
      if 48 ≤ c ∧ c ≤ 57 then
        match takeDigits (c :: r) with
        | (ds, r2) => some (.int (digitsVal ds), r2)
      else none
    | [] => none

/-- `json.loads`: parse one JSON value, allow trailing whitespace only. -/
def json_loads (s : List Nat) : Option Json :=
  match parseJson (s.length + 1) s with
  | some (j, rest) => if skipWs rest = [] then some j else none
  | none => none

/-- `str.encode("utf-8")` for one code point; fails on surrogates and
out-of-range values, as Python does. -/
def utf8EncodeChar (c : Nat) : Option (List Nat) :=
  if c < 128 then some [c]
  else if c < 2048 then some [192 + c / 64, 128 + c % 64]
  else if 55296 ≤ c ∧ c < 57344 then none
  else if c < 65536 then some [224 + c / 4096, 128 + c / 64 % 64, 128 + c % 64]
  else if c < 1114112 then
    some [240 + c / 262144, 128 + c / 4096 % 64, 128 + c / 64 % 64, 128 + c % 64]
  else none

/-- `str.encode("utf-8")`. -/
def utf8Encode : List Nat → Option (List Nat)
  | [] => some []
  | c :: rest =>
    match utf8EncodeChar c, utf8Encode rest with
    | some e, some es => some (e ++ es)
    | _, _ => none

/-- One step of strict UTF-8 decoding: the code point encoded starting at
lead byte `b0`, and the bytes left over.  Rejects stray continuation bytes,
overlong forms, surrogates and values beyond `0x10FFFF`, as Python's strict
decoder does. -/
def utf8Step (b0 : Nat) (rest : List Nat) : Option (Nat × List Nat) :=
  if b0 < 128 then some (b0, rest)
  else if b0 < 194 then none
  else if b0 < 224 then
    match rest with
    | b1 :: rest2 =>
      if 128 ≤ b1 ∧ b1 < 192 then some ((b0 - 192) * 64 + (b1 - 128), rest2)
      else none
    | [] => none
  else if b0 < 240 then
    match rest with
    | b1 :: b2 :: rest2 =>
      if (128 ≤ b1 ∧ b1 < 192) ∧ (128 ≤ b2 ∧ b2 < 192) then
        let c := (b0 - 224) * 4096 + (b1 - 128) * 64 + (b2 - 128)
        if 2048 ≤ c ∧ ¬(55296 ≤ c ∧ c < 57344) then some (c, rest2) else none
      else none
    | _ => none
  else if b0 < 245 then
    match rest with
    | b1 :: b2 :: b3 :: rest2 =>
      if (128 ≤ b1 ∧ b1 < 192) ∧ (128 ≤ b2 ∧ b2 < 192) ∧ (128 ≤ b3 ∧ b3 < 192) then
        let c := (b0 - 240) * 262144 + (b1 - 128) * 4096 + (b2 - 128) * 64 + (b3 - 128)
        if 65536 ≤ c ∧ c < 1114112 then some (c, rest2) else none
      else none
    | _ => none
  else none

/-- The decoding loop, driven by fuel.  Every step consumes at least the
lead byte, so fuel equal to the byte count always suffices. -/
def utf8DecodeGo : Nat → List Nat → Option (List Nat)
  | _, [] => some []
  | 0, _ :: _ => none
  | fuel + 1, b0 :: rest =>
    match utf8Step b0 rest with
    | some (c, rest2) =>
      match utf8DecodeGo fuel rest2 with
      | some cs => some (c :: cs)
      | none => none
    | none => none

/-- `bytes.decode("utf-8")`: strict UTF-8 decoding (rejecting overlong forms,
surrogates and out-of-range values, as Python does). -/
def utf8Decode (bs : List Nat) : Option (List Nat) := utf8DecodeGo bs.length bs

/-- The base64 alphabet character for a 6-bit value. -/
def b64char (v : Nat) : Nat :=
  if v < 26 then 65 + v
  else if v < 52 then 97 + (v - 26)
  else if v < 62 then 48 + (v - 52)
  else if v = 62 then 43
  else 47

/-- Value of a base64 alphabet character. -/
def b64decVal (c : Nat) : Option Nat :=
  if 65 ≤ c ∧ c ≤ 90 then some (c - 65)
  else if 97 ≤ c ∧ c ≤ 122 then some (c - 97 + 26)
  else if 48 ≤ c ∧ c ≤ 57 then some (c - 48 + 52)
  else if c = 43 then some 62
  else if c = 47 then some 63
  else none

/-- `base64.b64encode`: bytes to base64 text (as bytes), with `=` padding. -/
def b64encode : List Nat → List Nat
  | [] => []
  | [b0] => [b64char (b0 / 4), b64char (b0 % 4 * 16), 61, 61]
  | [b0, b1] => [b64char (b0 / 4), b64char (b0 % 4 * 16 + b1 / 16), b64char (b1 % 16 * 4), 61]
  | b0 :: b1 :: b2 :: rest =>
    b64char (b0 / 4) :: b64char (b0 % 4 * 16 + b1 / 16) :: b64char (b1 % 16 * 4 + b2 / 64) ::
      b64char (b2 % 64) :: b64encode rest

/-- Decode base64 text in four-character groups with terminal padding. -/
def b64decodeStrict : List Nat → Option (List Nat)
  | [] => some []
  | c0 :: c1 :: c2 :: c3 :: rest =>
    if c2 = 61 ∧ c3 = 61 ∧ rest = [] then
      match b64decVal c0, b64decVal c1 with
      | some v0, some v1 => some [v0 * 4 + v1 / 16]
      | _, _ => none
    else if c3 = 61 ∧ rest = [] then
      match b64decVal c0, b64decVal c1, b64decVal c2 with
      | some v0, some v1, some v2 => some [v0 * 4 + v1 / 16, v1 % 16 * 16 + v2 / 4]
      | _, _, _ => none
    else
      match b64decVal c0, b64decVal c1, b64decVal c2, b64decVal c3 with
      | some v0, some v1, some v2, some v3 =>
        match b64decodeStrict rest with
        | some bs =>
          some ((v0 * 4 + v1 / 16) :: (v1 % 16 * 16 + v2 / 4) :: (v2 % 4 * 64 + v3) :: bs)
        | none => none
      | _, _, _, _ => none
  | _ => none

/-- Characters `binascii` keeps when decoding (alphabet and padding);
everything else is discarded before decoding, as `base64.b64decode` does by
default. -/
def b64keep (c : Nat) : Bool := (b64decVal c).isSome || c == 61

/-- `base64.b64decode` (default `validate=False`): discard foreign
characters, then decode. -/
def b64decode (s : List Nat) : Option (List Nat) :=
  b64decodeStrict (s.filter b64keep)

/-- `encode_pagination_token` from `dynamodb/helpers.py`:
`json.dumps(last_key)`, `.encode("utf-8")`, `base64.b64encode`,
`.decode("utf-8")`.  `none` models a raised encoding error. -/
def encode_pagination_token (last_key : JsonFields) : Option (List Nat) :=
  match utf8Encode (dumpJson (.obj last_key)) with
  | none => none
  | some bytes => utf8Decode (b64encode bytes)

/-- `decode_pagination_token` from `dynamodb/helpers.py`:
`token.encode("utf-8")`, `base64.b64decode`, `.decode("utf-8")`,
`json.loads`; any failure becomes the `ValueError` with the invalid-token
message. -/
def decode_pagination_token (token : List Nat) : Except String Json :=
  match utf8Encode token with
  | none => .error "Invalid pagination token"
  | some bytes =>
    match b64decode bytes with
    | none => .error "Invalid pagination token"
    | some raw =>
      match utf8Decode raw with
      | none => .error "Invalid pagination token"
      | some js =>
        match json_loads js with
        | none => .error "Invalid pagination token"
        | some j => .ok j

/-! ## Helper lemmas -/

/-- The `except` classification always produces an `UnauthorizedError`. -/
theorem classifyTryExc_unauthorized (e : PyExc) :
    ∃ m, classifyTryExc e = .unauthorizedError m := by
  cases e <;> exact ⟨_, rfl⟩

/-- `get_jwks` only fails with the missing-pool `ValueError` or a
`RequestException` from the fetch. -/
theorem get_jwks_error_shape (region user_pool_id : Option String)
    (env : List (String × String)) (fetch : FetchOracle) (cache : Option Jwks)
    (e : PyExc) (c : Option Jwks) (n : Nat)
    (h : get_jwks region user_pool_id env fetch cache = (.error e, c, n)) :
    e = .valueError userPoolIdRequiredMsg ∨ ∃ m, e = .requestException m := by
  unfold get_jwks at h
  cases cache with
  | some jwks => simp at h
  | none =>
    by_cases hp : pyOrStr user_pool_id (envGet env "COGNITO_USER_POOL_ID" "") = ""
    · simp [hp] at h
      exact Or.inl h.1.symm
    · rcases hf : fetch (jwksUrl (pyOrStr region (envGet env "COGNITO_REGION" "us-west-2"))
        (pyOrStr user_pool_id (envGet env "COGNITO_USER_POOL_ID" ""))) with m | jwks <;>
        simp [hp, hf] at h
      exact Or.inr ⟨m, h.1.symm⟩

/-- `jwtDecode` only fails with a `JWTError`. -/
theorem jwtDecode_error_shape (t : Token) (key : Jwk) (algs : List String)
    (aud iss : String) (now : Int) (e : PyExc)
    (h : jwtDecode t key algs aud iss now = .error e) : ∃ m, e = .jwtError m := by
  unfold jwtDecode at h
  split_ifs at h <;> simp at h <;> exact ⟨_, h.symm⟩

/-- Every error escaping the `try` body classifies to one of the three
denials raised there. -/
theorem validateTryBody_error_classified (tok r p c : String)
    (env : List (String × String)) (jose : JoseModel) (fetch : FetchOracle)
    (cache : Option Jwks) (now : Int) (e : PyExc)
    (h : (validateTryBody tok r p c env jose fetch cache now).1 = .error e) :
    classifyTryExc e = .unauthorizedError "Invalid token"
    ∨ classifyTryExc e = .unauthorizedError "Invalid or expired token"
    ∨ classifyTryExc e = .unauthorizedError "Token validation failed" := by
  rcases hge : get_jwks (some r) (some p) env fetch cache with ⟨res, c1, n⟩
  cases res with
  | error e' =>
    have hb : (validateTryBody tok r p c env jose fetch cache now).1 = .error e' := by
      simp [validateTryBody, hge]
    rw [hb] at h
    obtain rfl : e' = e := Except.error.inj h
    rcases get_jwks_error_shape _ _ _ _ _ _ _ _ hge with he | ⟨m, he⟩ <;> subst he <;>
      simp [classifyTryExc]
  | ok jwks =>
    rcases hj : jose tok with _ | t
    · have hb : (validateTryBody tok r p c env jose fetch cache now).1
          = .error (.jwtError "Error decoding token headers.") := by
        simp [validateTryBody, hge, hj]
      rw [hb] at h
      obtain rfl := Except.error.inj h
      simp [classifyTryExc]
    · rcases hfk : findKey jwks.keys t.headerKid with _ | key
      · have hb : (validateTryBody tok r p c env jose fetch cache now).1
            = .error (.unauthorizedError "Invalid token") := by
          simp [validateTryBody, hge, hj, hfk]
        rw [hb] at h
        obtain rfl := Except.error.inj h
        simp [classifyTryExc]
      · have hb : (validateTryBody tok r p c env jose fetch cache now).1
            = jwtDecode t key ["RS256"] c
                ("https://cognito-idp." ++ r ++ ".amazonaws.com/" ++ p) now := by
          simp [validateTryBody, hge, hj, hfk]
        rw [hb] at h
        rcases jwtDecode_error_shape _ _ _ _ _ _ _ h with ⟨m, he⟩
        subst he
        simp [classifyTryExc]

/-- Splitting the empty header value yields no parts. -/
theorem pySplit_empty : pySplit "" = [] := rfl

/-- When the header is present, well-formed and the configuration is complete,
`validate_jwt_token` runs the `try` body on the extracted token and classifies
its error, with the resolved configuration values. -/
theorem validate_reaches_try (headers : List (String × String))
    (region user_pool_id app_client_id : Option String)
    (env : List (String × String)) (jose : JoseModel) (fetch : FetchOracle)
    (cache : Option Jwks) (now : Int) (v b tok regionR poolR clientR : String)
    (hauth : pyOrOpt (pyDictGet headers "authorization") (pyDictGet headers "Authorization")
      = some v)
    (hsplit : pySplit v = [b, tok])
    (hbearer : pyLower b = "bearer")
    (hr : pyOrStr region (envGet env "COGNITO_REGION" "us-west-2") = regionR)
    (hp : pyOrStr user_pool_id (envGet env "COGNITO_USER_POOL_ID" "") = poolR)
    (hc : pyOrStr app_client_id (envGet env "COGNITO_APP_CLIENT_ID" "") = clientR)
    (hpool : poolR ≠ "") (hclient : clientR ≠ "") :
    validate_jwt_token (some headers) region user_pool_id app_client_id env jose fetch cache now
      = ((validateTryBody tok regionR poolR clientR env jose fetch cache now).1.mapError
          classifyTryExc,
        (validateTryBody tok regionR poolR clientR env jose fetch cache now).2.1,
        (validateTryBody tok regionR poolR clientR env jose fetch cache now).2.2) := by
  have hv : v ≠ "" := by
    intro hveq
    rw [hveq, pySplit_empty] at hsplit
    exact List.noConfusion hsplit
  unfold validate_jwt_token
  simp only [Option.getD, hauth, hsplit, hr, hp, hc, pyTruthy]
  simp [hv, hbearer, hsplit, hpool, hclient, List.headD, List.getD]

/-- The key-scan loop agrees with first-match search in list order. -/
theorem findKey_eq_find? (keys : List Jwk) (kid : Option String) :
    findKey keys kid = keys.find? (fun k => some k.kid == kid) := by
  induction keys with
  | nil => rfl
  | cons k rest ih =>
    by_cases h : some k.kid = kid
    · simp [findKey, List.find?, h, ih]
    · have hf : (some k.kid == kid) = false := by simp [h]
      simp [findKey, List.find?, h, hf, ih]

/-! ## Claim theorems -/

/-- **C1, counterexample.**  The claim says a transport failure while fetching
the key set propagates to the caller unchanged, not re-raised as an
authorization error.  At this concrete input the fetch fails with a
`RequestException` ("connection error"), yet `validate_jwt_token` swallows it:
the caller sees `UnauthorizedError("Token validation failed")` (the `except
Exception` catch-all at the end of the function), not the transport error. -/
theorem c1_fetch_error_counterexample :
    (validate_jwt_token (some wHeaders) (some "reg1") (some "pool1") (some "client1")
        [] wJose wFetchFail none 0).1
      = .error (.unauthorizedError "Token validation failed")
    ∧ (validate_jwt_token (some wHeaders) (some "reg1") (some "pool1") (some "client1")
        [] wJose wFetchFail none 0).1
      ≠ .error (.requestException "connection error") := by
  exact ⟨rfl, by decide⟩

/-- **C1, amended.**  Whenever the key-set fetch fails with a transport error
(for any well-formed header and complete configuration, with an empty cache),
the error does not propagate: `validate_jwt_token`'s catch-all `except
Exception` clause re-raises it as `UnauthorizedError("Token validation
failed")`. -/
theorem validate_fetch_error_reraised (headers : List (String × String))
    (region user_pool_id app_client_id : Option String)
    (env : List (String × String)) (jose : JoseModel) (fetch : FetchOracle)
    (now : Int) (v b tok regionR poolR clientR emsg : String)
    (hauth : pyOrOpt (pyDictGet headers "authorization") (pyDictGet headers "Authorization")
      = some v)
    (hsplit : pySplit v = [b, tok])
    (hbearer : pyLower b = "bearer")
    (hr : pyOrStr region (envGet env "COGNITO_REGION" "us-west-2") = regionR)
    (hp : pyOrStr user_pool_id (envGet env "COGNITO_USER_POOL_ID" "") = poolR)
    (hc : pyOrStr app_client_id (envGet env "COGNITO_APP_CLIENT_ID" "") = clientR)
    (hpool : poolR ≠ "") (hclient : clientR ≠ "")
    (hfetch : ∀ url, fetch url = .error emsg) :
    (validate_jwt_token (some headers) region user_pool_id app_client_id env jose fetch none now).1
      = .error (.unauthorizedError "Token validation failed") := by
  rw [validate_reaches_try headers region user_pool_id app_client_id env jose fetch none now
    v b tok regionR poolR clientR hauth hsplit hbearer hr hp hc hpool hclient]
  have hb : (validateTryBody tok regionR poolR clientR env jose fetch none now).1
      = .error (.requestException emsg) := by
    simp [validateTryBody, get_jwks, pyOrStr, hpool, hfetch]
  show (validateTryBody tok regionR poolR clientR env jose fetch none now).1.mapError
    classifyTryExc = _
  rw [hb]
  rfl

/-- **C1, witness for the amended theorem**: a concrete run with the
configuration taken from the environment and a downed network. -/
theorem validate_fetch_error_reraised_witness :
    (validate_jwt_token (some wHeaders) none none none
        [("COGNITO_USER_POOL_ID", "pool1"), ("COGNITO_APP_CLIENT_ID", "client1")]
        wJose wFetchFail none 0).1
      = .error (.unauthorizedError "Token validation failed") :=
  validate_fetch_error_reraised wHeaders none none none
    [("COGNITO_USER_POOL_ID", "pool1"), ("COGNITO_APP_CLIENT_ID", "client1")]
    wJose wFetchFail 0 "Bearer T" "Bearer" "T" "us-west-2" "pool1" "client1" "connection error"
    rfl (by decide) rfl rfl rfl rfl (by decide) (by decide) (fun _ => rfl)

/-- **C3.**  Once the process-wide JWKS cache is populated, every further
`get_jwks` call — whatever its `region` and `user_pool_id` arguments — returns
the cached key set, performs zero network fetches, and leaves the cache
unchanged. -/
theorem get_jwks_cached_no_refetch (env : List (String × String)) (fetch : FetchOracle)
    (jwks : Jwks) (calls : List (Option String × Option String)) :
    run_get_jwks_calls env fetch (some jwks) calls
      = (calls.map (fun _ => Except.ok jwks), some jwks, 0) := by
  induction calls with
  | nil => rfl
  | cons c calls ih => cases c; simp [run_get_jwks_calls, get_jwks, ih]

/-- Core of the malformed-header case, shared by several theorems below. -/
theorem validate_malformed_core (headers : List (String × String))
    (region user_pool_id app_client_id : Option String)
    (env : List (String × String)) (jose : JoseModel) (fetch : FetchOracle)
    (cache : Option Jwks) (now : Int) (v : String)
    (hauth : pyOrOpt (pyDictGet headers "authorization") (pyDictGet headers "Authorization")
      = some v)
    (hv : v ≠ "")
    (hbad : ¬((pySplit v).length = 2 ∧ pyLower ((pySplit v).headD "") = "bearer")) :
    validate_jwt_token (some headers) region user_pool_id app_client_id env jose fetch cache now
      = (.error (.unauthorizedError "Invalid Authorization header format"), cache, 0) := by
  unfold validate_jwt_token
  rcases hxs : pySplit v with _ | ⟨x0, rest0⟩
  · simp [Option.getD, hauth, pyTruthy, hv, hxs]
  · rcases rest0 with _ | ⟨x1, rest1⟩
    · simp [Option.getD, hauth, pyTruthy, hv, hxs]
    · rcases rest1 with _ | ⟨x2, rest2⟩
      · have hb : ¬ pyLower x0 = "bearer" := fun hb0 => hbad (by rw [hxs]; exact ⟨rfl, hb0⟩)
        simp [Option.getD, hauth, pyTruthy, hv, hxs, hb]
      · simp [Option.getD, hauth, pyTruthy, hv, hxs]

/-- **C6.**  A present, non-empty authorization header value that does not
split on whitespace into exactly two parts with the first part
case-insensitively `"bearer"` makes `validate_jwt_token` fail with
`UnauthorizedError("Invalid Authorization header format")` (the spec's
"malformed header" denial), before any configuration or network work. -/
theorem validate_malformed_header_format (headers : List (String × String))
    (region user_pool_id app_client_id : Option String)
    (env : List (String × String)) (jose : JoseModel) (fetch : FetchOracle)
    (cache : Option Jwks) (now : Int) (v : String)
    (hauth : pyOrOpt (pyDictGet headers "authorization") (pyDictGet headers "Authorization")
      = some v)
    (hv : v ≠ "")
    (hbad : ¬((pySplit v).length = 2 ∧ pyLower ((pySplit v).headD "") = "bearer")) :
    validate_jwt_token (some headers) region user_pool_id app_client_id env jose fetch cache now
      = (.error (.unauthorizedError "Invalid Authorization header format"), cache, 0) :=
  validate_malformed_core headers region user_pool_id app_client_id env jose fetch cache now v
    hauth hv hbad

/-- **C6, witness**: the bare word `"Bearer"` with no second part splits into
one part and is rejected as malformed. -/
theorem validate_malformed_header_format_witness :
    validate_jwt_token (some [("Authorization", "Bearer")]) none none none [] wJose wFetchFail
        none 0
      = (.error (.unauthorizedError "Invalid Authorization header format"), none, 0) :=
  validate_malformed_header_format [("Authorization", "Bearer")] none none none [] wJose
    wFetchFail none 0 "Bearer" rfl (by decide) (by decide)

/-- **C7, counterexample.**  The claim says an empty resolved `user_pool_id`
makes the resolver fail with `ConfigError` in *every* cache state.  But with a
populated cache the emptiness check is never reached: here `user_pool_id`
resolves to empty (no argument, no environment default) and `get_jwks` still
returns the cached key set without error. -/
theorem c7_empty_pool_cached_counterexample :
    pyOrStr none (envGet [] "COGNITO_USER_POOL_ID" "") = ""
    ∧ get_jwks none none [] wFetchFail (some wJwks) = (.ok wJwks, some wJwks, 0) :=
  ⟨rfl, rfl⟩

/-- **C7, amended.**  When `user_pool_id` resolves to empty, `get_jwks` fails
with the missing-pool `ValueError` (the spec's `ConfigError`) *only from the
unpopulated cache state*; from a populated cache it returns the cached key set
without consulting the configuration at all. -/
theorem get_jwks_config_error_uncached_only (region user_pool_id : Option String)
    (env : List (String × String)) (fetch : FetchOracle)
    (hpool : pyOrStr user_pool_id (envGet env "COGNITO_USER_POOL_ID" "") = "") :
    get_jwks region user_pool_id env fetch none
        = (.error (.valueError userPoolIdRequiredMsg), none, 0)
    ∧ ∀ jwks, get_jwks region user_pool_id env fetch (some jwks) = (.ok jwks, some jwks, 0) := by
  refine ⟨?_, fun jwks => rfl⟩
  simp [get_jwks, hpool]

/-- **C7, witness for the amended theorem**: empty pool id, empty cache: the
missing-pool `ValueError` is raised. -/
theorem get_jwks_config_error_uncached_only_witness :
    get_jwks (some "us-west-2") (some "") [] wFetchFail none
        = (.error (.valueError userPoolIdRequiredMsg), none, 0)
    ∧ get_jwks (some "us-west-2") (some "") [] wFetchFail (some wJwks)
        = (.ok wJwks, some wJwks, 0) := by
  have h := get_jwks_config_error_uncached_only (some "us-west-2") (some "") [] wFetchFail
    (by decide)
  exact ⟨h.1, h.2 wJwks⟩

/-- **C2.**  For a well-formed bearer header, complete configuration, and a
token the engine reads as signed by the key the scan selects, with algorithm
`RS256`, matching audience and issuer, and unexpired, `validate_jwt_token`
returns exactly the token's claim set — nothing added, removed or altered —
without touching the network (the key set comes from the resolved cache). -/
theorem validate_valid_token_returns_claims (headers : List (String × String))
    (region user_pool_id app_client_id : Option String)
    (env : List (String × String)) (jose : JoseModel) (fetch : FetchOracle)
    (now : Int) (jwks : Jwks) (t : Token) (key : Jwk)
    (v b tok regionR poolR clientR : String)
    (hauth : pyOrOpt (pyDictGet headers "authorization") (pyDictGet headers "Authorization")
      = some v)
    (hsplit : pySplit v = [b, tok])
    (hbearer : pyLower b = "bearer")
    (hr : pyOrStr region (envGet env "COGNITO_REGION" "us-west-2") = regionR)
    (hp : pyOrStr user_pool_id (envGet env "COGNITO_USER_POOL_ID" "") = poolR)
    (hc : pyOrStr app_client_id (envGet env "COGNITO_APP_CLIENT_ID" "") = clientR)
    (hpool : poolR ≠ "") (hclient : clientR ≠ "")
    (hjose : jose tok = some t)
    (hfind : findKey jwks.keys t.headerKid = some key)
    (hsig : t.signedWith = some key.material)
    (halg : t.headerAlg = "RS256")
    (hexp : now < t.claims.exp)
    (haud : t.claims.aud = clientR)
    (hiss : t.claims.iss = "https://cognito-idp." ++ regionR ++ ".amazonaws.com/" ++ poolR) :
    validate_jwt_token (some headers) region user_pool_id app_client_id env jose fetch
        (some jwks) now
      = (.ok t.claims, some jwks, 0) := by
  rw [validate_reaches_try headers region user_pool_id app_client_id env jose fetch (some jwks)
    now v b tok regionR poolR clientR hauth hsplit hbearer hr hp hc hpool hclient]
  have hexp' : ¬ t.claims.exp ≤ now := not_le.mpr hexp
  have halg' : List.contains ["RS256"] t.headerAlg = true := by rw [halg]; rfl
  have hb : validateTryBody tok regionR poolR clientR env jose fetch (some jwks) now
      = (.ok t.claims, some jwks, 0) := by
    simp [validateTryBody, get_jwks, hjose, hfind, jwtDecode, hsig, halg, halg', haud, hiss,
      hexp']
  rw [hb]
  rfl

/-- **C2, witness**: a concrete valid token returns its claim set unchanged,
with the populated cache untouched and zero fetches. -/
theorem validate_valid_token_returns_claims_witness :
    validate_jwt_token (some wHeaders) (some "reg1") (some "pool1") (some "client1") [] wJose
        wFetchFail (some wJwks) 0
      = (.ok wClaims, some wJwks, 0) :=
  validate_valid_token_returns_claims wHeaders (some "reg1") (some "pool1") (some "client1") []
    wJose wFetchFail 0 wJwks wToken wJwk "Bearer T" "Bearer" "T" "reg1" "pool1" "client1"
    rfl (by decide) rfl rfl rfl rfl (by decide) (by decide) rfl rfl rfl rfl (by decide) rfl rfl

/-- **C4.**  Whenever the signature-and-claims engine rejects the token — for
any cause `m` whatsoever (bad signature, expired, wrong audience, wrong
issuer, malformed payload) — `validate_jwt_token` fails with
`UnauthorizedError("Invalid or expired token")`: one fixed generic message,
with the underlying cause `m` never part of the caller-visible error. -/
theorem validate_engine_failure_generic (headers : List (String × String))
    (region user_pool_id app_client_id : Option String)
    (env : List (String × String)) (jose : JoseModel) (fetch : FetchOracle)
    (now : Int) (jwks : Jwks) (t : Token) (key : Jwk)
    (v b tok regionR poolR clientR m : String)
    (hauth : pyOrOpt (pyDictGet headers "authorization") (pyDictGet headers "Authorization")
      = some v)
    (hsplit : pySplit v = [b, tok])
    (hbearer : pyLower b = "bearer")
    (hr : pyOrStr region (envGet env "COGNITO_REGION" "us-west-2") = regionR)
    (hp : pyOrStr user_pool_id (envGet env "COGNITO_USER_POOL_ID" "") = poolR)
    (hc : pyOrStr app_client_id (envGet env "COGNITO_APP_CLIENT_ID" "") = clientR)
    (hpool : poolR ≠ "") (hclient : clientR ≠ "")
    (hjose : jose tok = some t)
    (hfind : findKey jwks.keys t.headerKid = some key)
    (hdec : jwtDecode t key ["RS256"] clientR
        ("https://cognito-idp." ++ regionR ++ ".amazonaws.com/" ++ poolR) now
      = .error (.jwtError m)) :
    (validate_jwt_token (some headers) region user_pool_id app_client_id env jose fetch
        (some jwks) now).1
      = .error (.unauthorizedError "Invalid or expired token") := by
  rw [validate_reaches_try headers region user_pool_id app_client_id env jose fetch (some jwks)
    now v b tok regionR poolR clientR hauth hsplit hbearer hr hp hc hpool hclient]
  have hb : (validateTryBody tok regionR poolR clientR env jose fetch (some jwks) now).1
      = .error (.jwtError m) := by
    simp [validateTryBody, get_jwks, hjose, hfind, hdec]
  show (validateTryBody tok regionR poolR clientR env jose fetch (some jwks) now).1.mapError
    classifyTryExc = _
  rw [hb]
  rfl

/-- **C4, witness**: the concrete token expired (clock at 200, expiry 100);
the caller sees only the generic message. -/
theorem validate_engine_failure_generic_witness :
    (validate_jwt_token (some wHeaders) (some "reg1") (some "pool1") (some "client1") [] wJose
        wFetchFail (some wJwks) 200).1
      = .error (.unauthorizedError "Invalid or expired token") :=
  validate_engine_failure_generic wHeaders (some "reg1") (some "pool1") (some "client1") [] wJose
    wFetchFail 200 wJwks wToken wJwk "Bearer T" "Bearer" "T" "reg1" "pool1" "client1"
    "Signature has expired."
    rfl (by decide) rfl rfl rfl rfl (by decide) (by decide) rfl rfl rfl

/-- **C8.**  Key selection is the first-match linear scan of the key list:
the loop agrees with `List.find?` in list order; when no entry's kid equals
the token header's kid, `validate_jwt_token` fails with
`UnauthorizedError("Invalid token")`; when some entry matches, the first
matching entry is the key handed to the verification engine. -/
theorem validate_key_selection (headers : List (String × String))
    (region user_pool_id app_client_id : Option String)
    (env : List (String × String)) (jose : JoseModel) (fetch : FetchOracle)
    (now : Int) (jwks : Jwks) (t : Token)
    (v b tok regionR poolR clientR : String)
    (hauth : pyOrOpt (pyDictGet headers "authorization") (pyDictGet headers "Authorization")
      = some v)
    (hsplit : pySplit v = [b, tok])
    (hbearer : pyLower b = "bearer")
    (hr : pyOrStr region (envGet env "COGNITO_REGION" "us-west-2") = regionR)
    (hp : pyOrStr user_pool_id (envGet env "COGNITO_USER_POOL_ID" "") = poolR)
    (hc : pyOrStr app_client_id (envGet env "COGNITO_APP_CLIENT_ID" "") = clientR)
    (hpool : poolR ≠ "") (hclient : clientR ≠ "")
    (hjose : jose tok = some t) :
    findKey jwks.keys t.headerKid = jwks.keys.find? (fun k => some k.kid == t.headerKid)
    ∧ (findKey jwks.keys t.headerKid = none →
        validate_jwt_token (some headers) region user_pool_id app_client_id env jose fetch
            (some jwks) now
          = (.error (.unauthorizedError "Invalid token"), some jwks, 0))
    ∧ ∀ key, findKey jwks.keys t.headerKid = some key →
        validate_jwt_token (some headers) region user_pool_id app_client_id env jose fetch
            (some jwks) now
          = ((jwtDecode t key ["RS256"] clientR
                ("https://cognito-idp." ++ regionR ++ ".amazonaws.com/" ++ poolR) now).mapError
              classifyTryExc,
            some jwks, 0) := by
  refine ⟨findKey_eq_find? jwks.keys t.headerKid, ?_, ?_⟩
  · intro hfind
    rw [validate_reaches_try headers region user_pool_id app_client_id env jose fetch (some jwks)
      now v b tok regionR poolR clientR hauth hsplit hbearer hr hp hc hpool hclient]
    have hb : validateTryBody tok regionR poolR clientR env jose fetch (some jwks) now
        = (.error (.unauthorizedError "Invalid token"), some jwks, 0) := by
      simp [validateTryBody, get_jwks, hjose, hfind]
    rw [hb]
    rfl
  · intro key hfind
    rw [validate_reaches_try headers region user_pool_id app_client_id env jose fetch (some jwks)
      now v b tok regionR poolR clientR hauth hsplit hbearer hr hp hc hpool hclient]
    have hb : validateTryBody tok regionR poolR clientR env jose fetch (some jwks) now
        = (jwtDecode t key ["RS256"] clientR
            ("https://cognito-idp." ++ regionR ++ ".amazonaws.com/" ++ poolR) now,
          some jwks, 0) := by
      simp [validateTryBody, get_jwks, hjose, hfind]
    rw [hb]

/-- **C8, witness**: a key set with two entries sharing the kid; the scan
selects the first (whose material verifies the token), and verification
succeeds with it. -/
theorem validate_key_selection_witness :
    findKey wJwksDup.keys wToken.headerKid = some wJwk
    ∧ validate_jwt_token (some wHeaders) (some "reg1") (some "pool1") (some "client1") [] wJose
        wFetchFail (some wJwksDup) 0
      = (.ok wClaims, some wJwksDup, 0) := by
  have h := validate_key_selection wHeaders (some "reg1") (some "pool1") (some "client1") []
    wJose wFetchFail 0 wJwksDup wToken "Bearer T" "Bearer" "T" "reg1" "pool1" "client1"
    rfl (by decide) rfl rfl rfl rfl (by decide) (by decide) rfl
  refine ⟨rfl, ?_⟩
  rw [h.2.2 wJwk rfl]
  rfl

/-- Exhaustive shape analysis of a `validate_jwt_token` run: it either denies
with the missing-header message (exactly when the header lookup is falsy),
denies with the malformed-header message, raises one of the two configuration
`ValueError`s (each tied to its emptiness condition), succeeds, or denies with
one of the three messages produced by the `try` block's classification. -/
theorem validate_shape (headers : List (String × String))
    (region user_pool_id app_client_id : Option String)
    (env : List (String × String)) (jose : JoseModel) (fetch : FetchOracle)
    (cache : Option Jwks) (now : Int) :
    ((validate_jwt_token (some headers) region user_pool_id app_client_id env jose fetch cache
          now).1
        = .error (.unauthorizedError "Missing Authorization header")
      ∧ pyTruthy (pyOrOpt (pyDictGet headers "authorization")
          (pyDictGet headers "Authorization")) = false)
    ∨ (validate_jwt_token (some headers) region user_pool_id app_client_id env jose fetch cache
          now).1
        = .error (.unauthorizedError "Invalid Authorization header format")
    ∨ ((validate_jwt_token (some headers) region user_pool_id app_client_id env jose fetch cache
          now).1
        = .error (.valueError userPoolIdRequiredMsg)
      ∧ pyOrStr user_pool_id (envGet env "COGNITO_USER_POOL_ID" "") = "")
    ∨ ((validate_jwt_token (some headers) region user_pool_id app_client_id env jose fetch cache
          now).1
        = .error (.valueError appClientIdRequiredMsg)
      ∧ pyOrStr app_client_id (envGet env "COGNITO_APP_CLIENT_ID" "") = "")
    ∨ (∃ c, (validate_jwt_token (some headers) region user_pool_id app_client_id env jose fetch
          cache now).1 = .ok c)
    ∨ (∃ m, (validate_jwt_token (some headers) region user_pool_id app_client_id env jose fetch
          cache now).1 = .error (.unauthorizedError m)
        ∧ (m = "Invalid token" ∨ m = "Invalid or expired token"
          ∨ m = "Token validation failed")) := by
  rcases hA : pyOrOpt (pyDictGet headers "authorization") (pyDictGet headers "Authorization")
    with _ | v
  · refine Or.inl ⟨?_, by simp [hA, pyTruthy]⟩
    unfold validate_jwt_token
    simp [Option.getD, hA, pyTruthy]
  · by_cases hv : v = ""
    · subst hv
      refine Or.inl ⟨?_, by simp [hA, pyTruthy]⟩
      unfold validate_jwt_token
      simp [Option.getD, hA, pyTruthy]
    · rcases hxs : pySplit v with _ | ⟨x0, _ | ⟨x1, _ | ⟨x2, rest2⟩⟩⟩
      · exact Or.inr (Or.inl (by
          rw [validate_malformed_core headers region user_pool_id app_client_id env jose fetch
            cache now v hA hv (by rw [hxs]; simp)]))
      · exact Or.inr (Or.inl (by
          rw [validate_malformed_core headers region user_pool_id app_client_id env jose fetch
            cache now v hA hv (by rw [hxs]; simp)]))
      · by_cases hb : pyLower x0 = "bearer"
        · by_cases hpool : pyOrStr user_pool_id (envGet env "COGNITO_USER_POOL_ID" "") = ""
          · refine Or.inr (Or.inr (Or.inl ⟨?_, hpool⟩))
            unfold validate_jwt_token
            simp [Option.getD, hA, pyTruthy, hv, hxs, hb, hpool]
          · by_cases hclient :
                pyOrStr app_client_id (envGet env "COGNITO_APP_CLIENT_ID" "") = ""
            · refine Or.inr (Or.inr (Or.inr (Or.inl ⟨?_, hclient⟩)))
              unfold validate_jwt_token
              simp [Option.getD, hA, pyTruthy, hv, hxs, hb, hpool, hclient]
            · rw [validate_reaches_try headers region user_pool_id app_client_id env jose fetch
                cache now v x0 x1
                (pyOrStr region (envGet env "COGNITO_REGION" "us-west-2"))
                (pyOrStr user_pool_id (envGet env "COGNITO_USER_POOL_ID" ""))
                (pyOrStr app_client_id (envGet env "COGNITO_APP_CLIENT_ID" ""))
                hA hxs hb rfl rfl rfl hpool hclient]
              rcases htb : (validateTryBody x1
                  (pyOrStr region (envGet env "COGNITO_REGION" "us-west-2"))
                  (pyOrStr user_pool_id (envGet env "COGNITO_USER_POOL_ID" ""))
                  (pyOrStr app_client_id (envGet env "COGNITO_APP_CLIENT_ID" ""))
                  env jose fetch cache now).1 with e | c
              · rcases classifyTryExc_unauthorized e with ⟨m, hm⟩
                refine Or.inr (Or.inr (Or.inr (Or.inr (Or.inr ⟨m, ?_, ?_⟩))))
                · simp [Except.mapError, hm]
                · have h3 := validateTryBody_error_classified _ _ _ _ _ _ _ _ _ _ htb
                  rw [hm] at h3
                  rcases h3 with h3 | h3 | h3 <;>
                    simp only [PyExc.unauthorizedError.injEq] at h3 <;> tauto
              · exact Or.inr (Or.inr (Or.inr (Or.inr (Or.inl ⟨c, rfl⟩))))
        · exact Or.inr (Or.inl (by
            rw [validate_malformed_core headers region user_pool_id app_client_id env jose fetch
              cache now v hA hv (by rw [hxs]; simp [hb])]))
      · exact Or.inr (Or.inl (by
          rw [validate_malformed_core headers region user_pool_id app_client_id env jose fetch
            cache now v hA hv (by rw [hxs]; rintro ⟨hlen, -⟩; simp at hlen)]))

/-- **C5, counterexample.**  The claim says the header-name lookup is
case-insensitive over all capitalizations.  `"AUTHORIZATION"` is a
capitalization of `"authorization"`, yet a headers mapping containing only
that spelling is treated as having no authorization header: the code checks
exactly the two spellings `"authorization"` and `"Authorization"`. -/
theorem c5_any_capitalization_counterexample :
    pyLower "AUTHORIZATION" = "authorization"
    ∧ (validate_jwt_token (some [("AUTHORIZATION", "Bearer T")]) (some "reg1") (some "pool1")
        (some "client1") [] wJose wFetchFail none 0).1
      = .error (.unauthorizedError "Missing Authorization header") :=
  ⟨by decide, rfl⟩

/-- **C5, amended.**  `validate_jwt_token` fails with
`UnauthorizedError("Missing Authorization header")` exactly when the lookup
`headers.get("authorization") or headers.get("Authorization")` is falsy — the
two exact spellings, with a non-empty value, are what counts as present; any
other capitalization (or an empty value) is treated as absent. -/
theorem validate_missing_header_characterization (event : Option (List (String × String)))
    (region user_pool_id app_client_id : Option String) (env : List (String × String))
    (jose : JoseModel) (fetch : FetchOracle) (cache : Option Jwks) (now : Int) :
    ((validate_jwt_token event region user_pool_id app_client_id env jose fetch cache now).1
        = .error (.unauthorizedError "Missing Authorization header"))
      ↔ pyTruthy (pyOrOpt (pyDictGet (event.getD []) "authorization")
          (pyDictGet (event.getD []) "Authorization")) = false := by
  constructor
  · intro h
    rcases event with _ | headers
    · rfl
    · rcases validate_shape headers region user_pool_id app_client_id env jose fetch cache now
        with ⟨_, htr⟩ | hc | ⟨hc, _⟩ | ⟨hc, _⟩ | ⟨c, hc⟩ | ⟨m, hc, hm⟩
      · exact htr
      · exact absurd (hc.symm.trans h) (by simp)
      · exact absurd (hc.symm.trans h) (by simp)
      · exact absurd (hc.symm.trans h) (by simp)
      · exact absurd (hc.symm.trans h) (by simp)
      · have hmm : m = "Missing Authorization header" := by
          have := hc.symm.trans h
          simpa using this
        subst hmm
        rcases hm with h1 | h1 | h1 <;> simp at h1
  · intro h
    rcases event with _ | headers
    · rfl
    · have h' : pyTruthy (pyOrOpt (pyDictGet headers "authorization")
          (pyDictGet headers "Authorization")) = false := by simpa using h
      unfold validate_jwt_token
      simp [Option.getD, h']

/-- **C10.**  An explicitly passed empty-string `user_pool_id` /
`app_client_id` is treated as absent, not as an override: the run is
identical to passing no argument at all, and when the corresponding
environment variables are non-empty no `ValueError` (the spec's
`ConfigError`) can be raised. -/
theorem validate_empty_string_param_uses_env (event : Option (List (String × String)))
    (region : Option String) (env : List (String × String)) (jose : JoseModel)
    (fetch : FetchOracle) (cache : Option Jwks) (now : Int)
    (hpoolEnv : envGet env "COGNITO_USER_POOL_ID" "" ≠ "")
    (hclientEnv : envGet env "COGNITO_APP_CLIENT_ID" "" ≠ "") :
    validate_jwt_token event region (some "") (some "") env jose fetch cache now
      = validate_jwt_token event region none none env jose fetch cache now
    ∧ ∀ m, (validate_jwt_token event region (some "") (some "") env jose fetch cache now).1
        ≠ .error (.valueError m) := by
  constructor
  · rfl
  · intro m h
    rcases event with _ | headers
    · exact PyExc.noConfusion (Except.error.inj h)
    · rcases validate_shape headers region (some "") (some "") env jose fetch cache now
        with ⟨hc, _⟩ | hc | ⟨hc, hempty⟩ | ⟨hc, hempty⟩ | ⟨c, hc⟩ | ⟨m', hc, _⟩
      · exact absurd (hc.symm.trans h) (by simp)
      · exact absurd (hc.symm.trans h) (by simp)
      · exact hpoolEnv hempty
      · exact hclientEnv hempty
      · exact absurd (hc.symm.trans h) (by simp)
      · exact absurd (hc.symm.trans h) (by simp)

/-- **C10, witness**: empty-string arguments with a populated environment
behave exactly like absent arguments, and in particular raise no
`ValueError`. -/
theorem validate_empty_string_param_uses_env_witness :
    validate_jwt_token (some wHeaders) none (some "") (some "")
        [("COGNITO_USER_POOL_ID", "pool1"), ("COGNITO_APP_CLIENT_ID", "client1")]
        wJose wFetchFail none 0
      = validate_jwt_token (some wHeaders) none none none
        [("COGNITO_USER_POOL_ID", "pool1"), ("COGNITO_APP_CLIENT_ID", "client1")]
        wJose wFetchFail none 0
    ∧ (validate_jwt_token (some wHeaders) none (some "") (some "")
        [("COGNITO_USER_POOL_ID", "pool1"), ("COGNITO_APP_CLIENT_ID", "client1")]
        wJose wFetchFail none 0).1
      ≠ .error (.valueError userPoolIdRequiredMsg) := by
  have h := validate_empty_string_param_uses_env (some wHeaders) none
    [("COGNITO_USER_POOL_ID", "pool1"), ("COGNITO_APP_CLIENT_ID", "client1")]
    wJose wFetchFail none 0 (by decide) (by decide)
  exact ⟨h.1, h.2 userPoolIdRequiredMsg⟩

/-! ## Round-trip lemmas for the pagination codec: numbers -/

/-- Hex digits decode to their value. -/
theorem hexVal_hexDigit : ∀ v < 16, hexVal (hexDigit v) = some v := by decide

/-- `natStrAux` with a zero argument returns the accumulator. -/
theorem natStrAux_zero (fuel : Nat) (acc : List Nat) : natStrAux fuel 0 acc = acc := by
  cases fuel <;> simp [natStrAux]

/-- The accumulator is appended to the digits. -/
theorem natStrAux_append (fuel : Nat) : ∀ n acc, natStrAux fuel n acc = natStrAux fuel n [] ++ acc := by
  induction fuel with
  | zero => intro n acc; rfl
  | succ f ih =>
    intro n acc
    by_cases hn : n = 0
    · simp [natStrAux, hn]
    · simp only [natStrAux, hn, if_false]
      rw [ih (n / 10) ((48 + n % 10) :: acc), ih (n / 10) [48 + n % 10]]
      simp

/-- The fuel is irrelevant once it covers the argument. -/
theorem natStrAux_irrel : ∀ fuel fuel' n, n ≤ fuel → n ≤ fuel' →
    natStrAux fuel n [] = natStrAux fuel' n [] := by
  intro fuel
  induction fuel with
  | zero =>
    intro fuel' n h1 _
    have : n = 0 := by omega
    subst this
    rw [natStrAux_zero, natStrAux_zero]
  | succ f ih =>
    intro fuel' n h1 h2
    by_cases hn : n = 0
    · subst hn; rw [natStrAux_zero, natStrAux_zero]
    · have hf' : ∃ f', fuel' = f' + 1 := by cases fuel' with
        | zero => omega
        | succ k => exact ⟨k, rfl⟩
      obtain ⟨f', rfl⟩ := hf'
      simp only [natStrAux, hn, if_false]
      rw [natStrAux_append f (n / 10), natStrAux_append f' (n / 10)]
      have hd : n / 10 ≤ f := by omega
      have hd' : n / 10 ≤ f' := by omega
      rw [ih f' (n / 10) hd hd']

/-- Peeling the last digit off the decimal representation. -/
theorem natStr_decomp (n : Nat) (hn : 0 < n) :
    natStr n = (if n / 10 = 0 then [] else natStr (n / 10)) ++ [48 + n % 10] := by
  cases n with
  | zero => omega
  | succ m =>
    show natStr (m + 1) = _
    unfold natStr
    simp only [Nat.succ_ne_zero, if_false]
    conv => rw [natStrAux]
    simp only [Nat.succ_ne_zero, if_false]
    rw [natStrAux_append m ((m + 1) / 10)]
    by_cases h10 : (m + 1) / 10 = 0
    · simp [h10, natStrAux_zero]
    · simp only [h10, if_false]
      rw [natStrAux_irrel m ((m + 1) / 10) ((m + 1) / 10) (by omega) le_rfl]

/-- Every character of a decimal representation is a digit. -/
theorem natStr_digits : ∀ n, ∀ c ∈ natStr n, 48 ≤ c ∧ c ≤ 57 := by
  intro n
  induction n using Nat.strong_induction_on with
  | _ n ih =>
    by_cases hn : n = 0
    · subst hn; intro c hc; simp [natStr] at hc; omega
    · rw [natStr_decomp n (by omega)]
      intro c hc
      rcases List.mem_append.mp hc with hc | hc
      · by_cases h10 : n / 10 = 0
        · simp [h10] at hc
        · simp only [h10, if_false] at hc
          exact ih (n / 10) (by omega) c hc
      · simp at hc
        omega

/-- A decimal representation is never empty. -/
theorem natStr_ne_nil (n : Nat) : natStr n ≠ [] := by
  by_cases hn : n = 0
  · subst hn; simp [natStr]
  · rw [natStr_decomp n (by omega)]
    simp

/-- The decimal representation starts with a digit. -/
theorem natStr_head (n : Nat) : ∃ d ds, natStr n = d :: ds ∧ 48 ≤ d ∧ d ≤ 57 := by
  rcases h : natStr n with _ | ⟨d, ds⟩
  · exact absurd h (natStr_ne_nil n)
  · have := natStr_digits n d (by rw [h]; simp)
    exact ⟨d, ds, rfl, this.1, this.2⟩

/-- Appending one digit multiplies the value by ten. -/
theorem digitsVal_append (xs : List Nat) (d : Nat) :
    digitsVal (xs ++ [d]) = digitsVal xs * 10 + (d - 48) := by
  simp [digitsVal, List.foldl_append]

/-- Parsing back the decimal representation gives the number. -/
theorem digitsVal_natStr : ∀ n, digitsVal (natStr n) = n := by
  intro n
  induction n using Nat.strong_induction_on with
  | _ n ih =>
    by_cases hn : n = 0
    · subst hn; simp [natStr, digitsVal]
    · rw [natStr_decomp n (by omega), digitsVal_append]
      by_cases h10 : n / 10 = 0
      · simp only [h10, if_true]
        show digitsVal [] * 10 + (48 + n % 10 - 48) = n
        simp [digitsVal]
        omega
      · simp only [h10, if_false]
        rw [ih (n / 10) (by omega)]
        omega

/-- `takeDigits` consumes exactly a run of digits followed by a non-digit. -/
theorem takeDigits_append : ∀ ds, (∀ c ∈ ds, 48 ≤ c ∧ c ≤ 57) →
    ∀ rest, notDigitStart rest → takeDigits (ds ++ rest) = (ds, rest) := by
  intro ds
  induction ds with
  | nil =>
    intro _ rest hrest
    cases rest with
    | nil => rfl
    | cons c r =>
      simp only [notDigitStart] at hrest
      simp [takeDigits, hrest]
  | cons d ds ih =>
    intro hds rest hrest
    have hd := hds d (by simp)
    simp only [List.cons_append, takeDigits, hd, and_self, if_pos, List.append_eq]
    rw [ih (fun c hc => hds c (by simp [hc])) rest hrest]

/-! ## Round-trip lemmas for the pagination codec: strings -/

/-- Stepping lemma: the `\"` escape. -/
theorem psb_34 (tail : List Nat) : parseStringBody (92 :: 34 :: tail)
    = match parseStringBody tail with
      | some (s, r) => some (34 :: s, r)
      | none => none := rfl

/-- Stepping lemma: a `\uXXXX` escape with arbitrary digit characters. -/
theorem psb_hex (a b c d : Nat) (tail : List Nat) :
    parseStringBody (92 :: 117 :: a :: b :: c :: d :: tail)
      = match hexVal a, hexVal b, hexVal c, hexVal d with
        | some va, some vb, some vc, some vd =>
          (match parseStringBody tail with
           | some (s, r) => some ((va * 4096 + vb * 256 + vc * 16 + vd) :: s, r)
           | none => none)
        | _, _, _, _ => none := rfl

/-- Stepping lemma: a literal (unescaped) character. -/
theorem psb_lit (c : Nat) (h34 : c ≠ 34) (h92 : c ≠ 92) (tail : List Nat) :
    parseStringBody (c :: tail)
      = if c < 32 then none
        else match parseStringBody tail with
          | some (s, r) => some (c :: s, r)
          | none => none := by
  simp [parseStringBody, h34, h92]

/-- A `\uXXXX` escape of a code unit parses back to that unit. -/
theorem psb_u (u : Nat) (hu : u < 65536) (tail : List Nat) :
    parseStringBody (92 :: 117 :: hex4 u ++ tail)
      = match parseStringBody tail with
        | some (s, r) => some (u :: s, r)
        | none => none := by
  simp only [hex4, List.cons_append, List.nil_append]
  rw [psb_hex]
  rw [hexVal_hexDigit _ (by omega), hexVal_hexDigit _ (by omega),
    hexVal_hexDigit _ (by omega), hexVal_hexDigit _ (by omega)]
  have hval : u / 4096 % 16 * 4096 + u / 256 % 16 * 256 + u / 16 % 16 * 16 + u % 16 = u := by
    omega
  simp [hval]

/-- The escape of one scalar code point parses back to its code units. -/
theorem escapeChar_units (c : Nat) (hc1 : c < 1114112) (hc2 : c < 55296 ∨ 57344 ≤ c)
    (tail : List Nat) :
    parseStringBody (escapeChar c ++ tail)
      = match parseStringBody tail with
        | some (s, r) => some (unitsOf c ++ s, r)
        | none => none := by
  by_cases h34 : c = 34
  · subst h34
    show parseStringBody (92 :: 34 :: tail) = _
    rw [psb_34]
    cases hps : parseStringBody tail <;> simp [hps, unitsOf]
  by_cases h92 : c = 92
  · subst h92
    show parseStringBody (92 :: 92 :: tail) = _
    have step : parseStringBody (92 :: 92 :: tail)
        = match parseStringBody tail with
          | some (s, r) => some (92 :: s, r)
          | none => none := rfl
    rw [step]
    cases hps : parseStringBody tail <;> simp [hps, unitsOf]
  by_cases h8 : c = 8
  · subst h8
    show parseStringBody (92 :: 98 :: tail) = _
    have step : parseStringBody (92 :: 98 :: tail)
        = match parseStringBody tail with
          | some (s, r) => some (8 :: s, r)
          | none => none := rfl
    rw [step]
    cases hps : parseStringBody tail <;> simp [hps, unitsOf]
  by_cases h9 : c = 9
  · subst h9
    show parseStringBody (92 :: 116 :: tail) = _
    have step : parseStringBody (92 :: 116 :: tail)
        = match parseStringBody tail with
          | some (s, r) => some (9 :: s, r)
          | none => none := rfl
    rw [step]
    cases hps : parseStringBody tail <;> simp [hps, unitsOf]
  by_cases h10 : c = 10
  · subst h10
    show parseStringBody (92 :: 110 :: tail) = _
    have step : parseStringBody (92 :: 110 :: tail)
        = match parseStringBody tail with
          | some (s, r) => some (10 :: s, r)
          | none => none := rfl
    rw [step]
    cases hps : parseStringBody tail <;> simp [hps, unitsOf]
  by_cases h12 : c = 12
  · subst h12
    show parseStringBody (92 :: 102 :: tail) = _
    have step : parseStringBody (92 :: 102 :: tail)
        = match parseStringBody tail with
          | some (s, r) => some (12 :: s, r)
          | none => none := rfl
    rw [step]
    cases hps : parseStringBody tail <;> simp [hps, unitsOf]
  by_cases h13 : c = 13
  · subst h13
    show parseStringBody (92 :: 114 :: tail) = _
    have step : parseStringBody (92 :: 114 :: tail)
        = match parseStringBody tail with
          | some (s, r) => some (13 :: s, r)
          | none => none := rfl
    rw [step]
    cases hps : parseStringBody tail <;> simp [hps, unitsOf]
  by_cases hlit : 32 ≤ c ∧ c ≤ 126
  · have hesc : escapeChar c = [c] := by
      simp [escapeChar, h34, h92, h8, h9, h10, h12, h13, hlit]
    rw [hesc]
    simp only [List.cons_append, List.nil_append]
    rw [psb_lit c h34 h92]
    have : ¬ c < 32 := by omega
    simp only [this, if_false]
    cases hps : parseStringBody tail <;>
      simp [hps, unitsOf, show c < 65536 by omega]
  by_cases hsmall : c < 65536
  · have hesc : escapeChar c = 92 :: 117 :: hex4 c := by
      simp [escapeChar, h34, h92, h8, h9, h10, h12, h13, hlit, hsmall]
    rw [hesc]
    rw [psb_u c hsmall tail]
    cases hps : parseStringBody tail <;> simp [hps, unitsOf, hsmall]
  · have hesc : escapeChar c = (92 :: 117 :: hex4 (55296 + (c - 65536) / 1024))
        ++ (92 :: 117 :: hex4 (56320 + (c - 65536) % 1024)) := by
      simp [escapeChar, h34, h92, h8, h9, h10, h12, h13, hlit, hsmall]
    rw [hesc]
    rw [List.append_assoc]
    rw [psb_u (55296 + (c - 65536) / 1024) (by omega)]
    rw [psb_u (56320 + (c - 65536) % 1024) (by omega)]
    cases hps : parseStringBody tail <;> simp [hps, unitsOf, hsmall]

/-- A well-formed string body parses back to its code-unit sequence, leaving
the remainder untouched. -/
theorem psb_escBody (s : List Nat) (hwf : strWF s = true) (tail : List Nat) :
    parseStringBody (escBody s ++ tail) = some (unitsList s, tail) := by
  induction s with
  | nil =>
    show parseStringBody (34 :: tail) = _
    rfl
  | cons c s ih =>
    have hc : scalarOK c = true ∧ strWF s = true := by
      simpa [strWF] using hwf
    have hb : c < 1114112 ∧ (c < 55296 ∨ 57344 ≤ c) := by
      simpa [scalarOK] using hc.1
    simp only [escBody, List.append_assoc]
    rw [escapeChar_units c hb.1 hb.2]
    rw [ih hc.2]
    simp [unitsList]

/-- Recombining the code units of a well-formed scalar code point restores
it. -/
theorem combine_units_cons (c : Nat) (h1 : c < 1114112) (h2 : c < 55296 ∨ 57344 ≤ c)
    (us : List Nat) :
    combineSurrogates (unitsOf c ++ us) = c :: combineSurrogates us := by
  by_cases hc : c < 65536
  · simp only [unitsOf, hc, if_pos, List.cons_append, List.nil_append]
    cases us with
    | nil => rfl
    | cons u us2 =>
      have hno : ¬(55296 ≤ c ∧ c < 56320 ∧ 56320 ≤ u ∧ u < 57344) := by omega
      simp [combineSurrogates, hno]
  · simp only [unitsOf, hc, if_neg, List.cons_append, List.nil_append]
    have hyes : 55296 ≤ 55296 + (c - 65536) / 1024 ∧ 55296 + (c - 65536) / 1024 < 56320
        ∧ 56320 ≤ 56320 + (c - 65536) % 1024 ∧ 56320 + (c - 65536) % 1024 < 57344 := by
      omega
    simp only [combineSurrogates, hyes, and_self, if_pos]
    have : (55296 + (c - 65536) / 1024 - 55296) * 1024 + (56320 + (c - 65536) % 1024 - 56320)
        + 65536 = c := by omega
    rw [this]
    simp

/-- Recombining the code units of a well-formed string restores it. -/
theorem combine_unitsList (s : List Nat) (hwf : strWF s = true) :
    combineSurrogates (unitsList s) = s := by
  induction s with
  | nil => rfl
  | cons c s ih =>
    have hc : scalarOK c = true ∧ strWF s = true := by
      simpa [strWF] using hwf
    have hb : c < 1114112 ∧ (c < 55296 ∨ 57344 ≤ c) := by
      simpa [scalarOK] using hc.1
    simp only [unitsList]
    rw [combine_units_cons c hb.1 hb.2, ih hc.2]

/-! ## Round-trip lemmas for the pagination codec: whitespace and sizes -/

/-- `skipWs` leaves a non-whitespace head alone. -/
theorem skipWs_not_ws (c : Nat) (h : ¬(c = 32 ∨ c = 9 ∨ c = 10 ∨ c = 13)) (l : List Nat) :
    skipWs (c :: l) = c :: l := by
  simp [skipWs, h]

/-- A serialized JSON value starts with one of the value-start characters
(none of which is whitespace or a separator). -/
theorem dumpJson_head (j : Json) : ∃ c cs, dumpJson j = c :: cs
    ∧ (c = 110 ∨ c = 116 ∨ c = 102 ∨ c = 34 ∨ c = 45 ∨ (48 ≤ c ∧ c ≤ 57) ∨ c = 91
      ∨ c = 123) := by
  cases j with
  | null => exact ⟨110, _, rfl, by omega⟩
  | bool b =>
    cases b with
    | true => exact ⟨116, _, rfl, by omega⟩
    | false => exact ⟨102, _, rfl, by omega⟩
  | int i =>
    by_cases hi : i < 0
    · refine ⟨45, natStr i.natAbs, ?_, by omega⟩
      simp [dumpJson, intStr, hi]
    · obtain ⟨d, ds, hd, h1, h2⟩ := natStr_head i.toNat
      refine ⟨d, ds, ?_, by omega⟩
      simp [dumpJson, intStr, hi, hd]
  | str s => exact ⟨34, escBody s, rfl, by omega⟩
  | arr xs =>
    cases xs with
    | nil => exact ⟨91, _, rfl, by omega⟩
    | cons x xs2 => exact ⟨91, _, rfl, by omega⟩
  | obj fs =>
    cases fs with
    | nil => exact ⟨123, _, rfl, by omega⟩
    | cons k v fs2 => exact ⟨123, _, rfl, by omega⟩

/-- `skipWs` leaves a serialized value alone. -/
theorem skipWs_dump (j : Json) (rest : List Nat) :
    skipWs (dumpJson j ++ rest) = dumpJson j ++ rest := by
  obtain ⟨c, cs, hc, hn⟩ := dumpJson_head j
  rw [hc, List.cons_append]
  exact skipWs_not_ws c (by omega) _

/-- Every value needs at least one unit of parser budget. -/
theorem jsize_pos (j : Json) : 1 ≤ jsize j := by
  cases j <;> simp [jsize]

/-- A separator-led remainder does not start with a digit. -/
theorem restOK_notDigit (rest : List Nat) (h : restOK rest) : notDigitStart rest := by
  cases rest with
  | nil => trivial
  | cons c r =>
    simp only [restOK] at h
    simp only [notDigitStart]
    omega

mutual
/-- The serialization is at least as long as the parser budget the value
needs. -/
theorem jsize_le : ∀ j : Json, jsize j ≤ (dumpJson j).length
  | .null => by simp [jsize, dumpJson]
  | .bool b => by cases b <;> simp [jsize, dumpJson]
  | .int i => by
    simp only [jsize, dumpJson]
    by_cases hi : i < 0
    · simp [intStr, hi]
    · simp only [intStr, hi, if_false]
      have := natStr_ne_nil i.toNat
      have : 0 < (natStr i.toNat).length := List.length_pos.mpr this
      omega
  | .str s => by simp [jsize, dumpJson, escapeString]
  | .arr .nil => by simp [jsize, lsize, dumpJson]
  | .arr (.cons x xs) => by
    have h1 := jsize_le x
    have h2 := lsize_le xs
    simp only [jsize, lsize, dumpJson, List.length_cons, List.length_append]
    simp
    omega
  | .obj .nil => by simp [jsize, fsize, dumpJson]
  | .obj (.cons k v fs) => by
    have h1 := jsize_le v
    have h2 := fsize_le fs
    simp only [jsize, fsize, dumpJson, List.length_cons, List.length_append]
    simp
    omega
/-- Budget bound for serialized array tails. -/
theorem lsize_le : ∀ xs : JsonList, lsize xs ≤ (dumpArrTail xs).length
  | .nil => by simp [lsize, dumpArrTail]
  | .cons x xs => by
    have h1 := jsize_le x
    have h2 := lsize_le xs
    simp only [lsize, dumpArrTail, List.length_cons, List.length_append]
    omega
/-- Budget bound for serialized object tails. -/
theorem fsize_le : ∀ fs : JsonFields, fsize fs ≤ (dumpObjTail fs).length
  | .nil => by simp [fsize, dumpObjTail]
  | .cons k v fs => by
    have h1 := jsize_le v
    have h2 := fsize_le fs
    simp only [fsize, dumpObjTail, List.length_cons, List.length_append]
    omega
end

/-- A leading space is insignificant to the parser. -/
theorem parseJson_space (f : Nat) (x : List Nat) : parseJson f (32 :: x) = parseJson f x := by
  cases f with
  | zero => rfl
  | succ g =>
    show parseJson (g + 1) (32 :: x) = parseJson (g + 1) x
    simp only [parseJson]
    have : skipWs (32 :: x) = skipWs x := by simp [skipWs]
    rw [this]

/-! ## Round-trip lemmas for the pagination codec: parser stepping -/

/-- Stepping: `null`. -/
theorem pj_null (f : Nat) (x : List Nat) :
    parseJson (f + 1) (110 :: 117 :: 108 :: 108 :: x) = some (.null, x) := by
  simp only [parseJson]
  rw [skipWs_not_ws 110 (by omega)]

/-- Stepping: `true`. -/
theorem pj_true (f : Nat) (x : List Nat) :
    parseJson (f + 1) (116 :: 114 :: 117 :: 101 :: x) = some (.bool true, x) := by
  simp only [parseJson]
  rw [skipWs_not_ws 116 (by omega)]

/-- Stepping: `false`. -/
theorem pj_false (f : Nat) (x : List Nat) :
    parseJson (f + 1) (102 :: 97 :: 108 :: 115 :: 101 :: x) = some (.bool false, x) := by
  simp only [parseJson]
  rw [skipWs_not_ws 102 (by omega)]

/-- Stepping: a string opener. -/
theorem pj_str (f : Nat) (x : List Nat) :
    parseJson (f + 1) (34 :: x)
      = match parseStringBody x with
        | some (s, r1) => some (.str (combineSurrogates s), r1)
        | none => none := by
  simp only [parseJson]
  rw [skipWs_not_ws 34 (by omega)]

/-- Stepping: a negative number. -/
theorem pj_neg (f : Nat) (x : List Nat) :
    parseJson (f + 1) (45 :: x)
      = match takeDigits x with
        | ([], _) => none
        | (ds, r2) => some (.int (-(digitsVal ds : Int)), r2) := by
  simp only [parseJson]
  rw [skipWs_not_ws 45 (by omega)]

/-- Stepping: an array opener. -/
theorem pj_arr (f : Nat) (x : List Nat) :
    parseJson (f + 1) (91 :: x)
      = (match skipWs x with
        | 93 :: r2 => some (.arr .nil, r2)
        | r1 =>
          match parseItems (parseJson f) f r1 with
          | some (xs, r2) => some (.arr xs, r2)
          | none => none) := by
  simp only [parseJson]
  rw [skipWs_not_ws 91 (by omega)]

/-- Stepping: an object opener. -/
theorem pj_obj (f : Nat) (x : List Nat) :
    parseJson (f + 1) (123 :: x)
      = (match skipWs x with
        | 125 :: r2 => some (.obj .nil, r2)
        | r1 =>
          match parseFields (parseJson f) f r1 with
          | some (fs, r2) => some (.obj fs, r2)
          | none => none) := by
  simp only [parseJson]
  rw [skipWs_not_ws 123 (by omega)]

/-- Stepping: a digit-led number. -/
theorem pj_digit (f c : Nat) (h1 : 48 ≤ c) (h2 : c ≤ 57) (x : List Nat) :
    parseJson (f + 1) (c :: x)
      = match takeDigits (c :: x) with
        | (ds, r2) => some (.int (digitsVal ds), r2) := by
  simp only [parseJson]
  rw [skipWs_not_ws c (by omega)]
  split
  · rename_i heq; rw [List.cons.injEq] at heq; omega
  · rename_i heq; rw [List.cons.injEq] at heq; omega
  · rename_i heq; rw [List.cons.injEq] at heq; omega
  · rename_i heq; rw [List.cons.injEq] at heq; omega
  · rename_i heq; rw [List.cons.injEq] at heq; omega
  · rename_i heq; rw [List.cons.injEq] at heq; omega
  · rename_i heq; rw [List.cons.injEq] at heq; omega
  · rename_i c' r heq
    rw [List.cons.injEq] at heq
    obtain ⟨rfl, rfl⟩ := heq
    simp [h1, h2]
  · rename_i heq; exact absurd heq (by simp)

/-- A leading space is insignificant to the array-element loop. -/
theorem parseItems_space (fuel g : Nat) (x : List Nat) :
    parseItems (parseJson fuel) g (32 :: x) = parseItems (parseJson fuel) g x := by
  cases g with
  | zero => rfl
  | succ g => simp only [parseItems, parseJson_space]

/-- A leading space is insignificant to the object-entry loop. -/
theorem parseFields_space (fuel g : Nat) (x : List Nat) :
    parseFields (parseJson fuel) g (32 :: x) = parseFields (parseJson fuel) g x := by
  cases g with
  | zero => rfl
  | succ g =>
    simp only [parseFields]
    have : skipWs (32 :: x) = skipWs x := by simp [skipWs]
    rw [this]

/-- The text after the first element of an array body is separator-led. -/
theorem restOK_arrTail (xs : JsonList) (rest : List Nat) :
    restOK (dumpArrTail xs ++ 93 :: rest) := by
  cases xs with
  | nil => simp [dumpArrTail, restOK]
  | cons x xs => simp [dumpArrTail, restOK]

/-- The text after the first entry of an object body is separator-led. -/
theorem restOK_objTail (fs : JsonFields) (rest : List Nat) :
    restOK (dumpObjTail fs ++ 125 :: rest) := by
  cases fs with
  | nil => simp [dumpObjTail, restOK]
  | cons k v fs => simp [dumpObjTail, restOK]

/-! ## The parse-print round trip -/

mutual
/-- A serialized well-formed JSON value parses back to itself, consuming
exactly its own text, whenever the remainder is separator-led and the fuel
covers the value. -/
theorem parse_dumpJson : ∀ j : Json, jsonWF j = true → ∀ fuel rest, jsize j ≤ fuel →
    restOK rest → parseJson fuel (dumpJson j ++ rest) = some (j, rest)
  | .null => by
    intro hwf fuel rest hs hr
    cases fuel with
    | zero => simp [jsize] at hs
    | succ f =>
      show parseJson (f + 1) ([110, 117, 108, 108] ++ rest) = _
      simp only [List.cons_append, List.nil_append]
      exact pj_null f rest
  | .bool true => by
    intro hwf fuel rest hs hr
    cases fuel with
    | zero => simp [jsize] at hs
    | succ f =>
      show parseJson (f + 1) ([116, 114, 117, 101] ++ rest) = _
      simp only [List.cons_append, List.nil_append]
      exact pj_true f rest
  | .bool false => by
    intro hwf fuel rest hs hr
    cases fuel with
    | zero => simp [jsize] at hs
    | succ f =>
      show parseJson (f + 1) ([102, 97, 108, 115, 101] ++ rest) = _
      simp only [List.cons_append, List.nil_append]
      exact pj_false f rest
  | .int i => by
    intro hwf fuel rest hs hr
    cases fuel with
    | zero => simp [jsize] at hs
    | succ f =>
      by_cases hi : i < 0
      · have hd : dumpJson (.int i) = 45 :: natStr i.natAbs := by
          simp [dumpJson, intStr, hi]
        rw [hd, List.cons_append, pj_neg]
        rw [takeDigits_append _ (natStr_digits _) rest (restOK_notDigit rest hr)]
        obtain ⟨d, ds, hnat, hd1, hd2⟩ := natStr_head i.natAbs
        rw [hnat]
        simp only []
        rw [← hnat, digitsVal_natStr]
        have hval : -((i.natAbs : Nat) : Int) = i := by omega
        rw [hval]
      · have hd : dumpJson (.int i) = natStr i.toNat := by
          simp [dumpJson, intStr, hi]
        obtain ⟨d, ds, hnat, hd1, hd2⟩ := natStr_head i.toNat
        rw [hd, hnat, List.cons_append, pj_digit f d hd1 hd2]
        rw [← List.cons_append, ← hnat]
        rw [takeDigits_append _ (natStr_digits _) rest (restOK_notDigit rest hr)]
        simp only []
        rw [digitsVal_natStr]
        have hval : ((i.toNat : Nat) : Int) = i := by omega
        rw [hval]
  | .str s => by
    intro hwf fuel rest hs hr
    cases fuel with
    | zero => simp [jsize] at hs
    | succ f =>
      have hwf2 : strWF s = true := by simpa [jsonWF] using hwf
      show parseJson (f + 1) ((34 :: escBody s) ++ rest) = _
      rw [List.cons_append, pj_str]
      rw [psb_escBody s hwf2 rest]
      simp only []
      rw [combine_unitsList s hwf2]
  | .arr .nil => by
    intro hwf fuel rest hs hr
    cases fuel with
    | zero => simp [jsize, lsize] at hs
    | succ f =>
      show parseJson (f + 1) ([91, 93] ++ rest) = _
      simp only [List.cons_append, List.nil_append]
      rw [pj_arr]
      rw [skipWs_not_ws 93 (by omega)]
  | .arr (.cons x xs) => by
    intro hwf fuel rest hs hr
    have hwx : jsonWF x = true ∧ listWF xs = true := by
      simpa [jsonWF, listWF] using hwf
    cases fuel with
    | zero =>
      have := jsize_pos (.arr (.cons x xs))
      omega
    | succ f =>
      show parseJson (f + 1) ((91 :: dumpJson x ++ dumpArrTail xs ++ [93]) ++ rest) = _
      have harr : (91 :: dumpJson x ++ dumpArrTail xs ++ [93]) ++ rest
          = 91 :: (dumpJson x ++ (dumpArrTail xs ++ 93 :: rest)) := by simp
      rw [harr, pj_arr]
      rw [skipWs_dump x (dumpArrTail xs ++ 93 :: rest)]
      have hsz : jsize x + lsize xs + 1 ≤ f := by
        simp [jsize, lsize] at hs
        omega
      have hpi := parse_items x xs hwx.1 hwx.2 f f rest hsz hsz hr
      obtain ⟨c, cs, hc, hcset⟩ := dumpJson_head x
      rw [hc, List.cons_append]
      split
      · rename_i r2 heq
        rw [List.cons.injEq] at heq
        omega
      · rw [← List.cons_append, ← hc, hpi]
  | .obj .nil => by
    intro hwf fuel rest hs hr
    cases fuel with
    | zero => simp [jsize, fsize] at hs
    | succ f =>
      show parseJson (f + 1) ([123, 125] ++ rest) = _
      simp only [List.cons_append, List.nil_append]
      rw [pj_obj]
      rw [skipWs_not_ws 125 (by omega)]
  | .obj (.cons k v fs) => by
    intro hwf fuel rest hs hr
    have hwx : strWF k = true ∧ jsonWF v = true ∧ fieldsWF fs = true := by
      simpa [jsonWF, fieldsWF, and_assoc] using hwf
    cases fuel with
    | zero =>
      have := jsize_pos (.obj (.cons k v fs))
      omega
    | succ f =>
      show parseJson (f + 1)
        ((123 :: escapeString k ++ (58 :: 32 :: dumpJson v) ++ dumpObjTail fs ++ [125]) ++ rest)
        = _
      have hobj : (123 :: escapeString k ++ (58 :: 32 :: dumpJson v) ++ dumpObjTail fs ++ [125])
            ++ rest
          = 123 :: (34 :: (escBody k
            ++ (58 :: 32 :: (dumpJson v ++ (dumpObjTail fs ++ 125 :: rest))))) := by
        simp [escapeString]
      rw [hobj, pj_obj]
      rw [skipWs_not_ws 34 (by omega)]
      simp only []
      have hsz : jsize v + fsize fs + 1 ≤ f := by
        simp [jsize, fsize] at hs
        omega
      have hpf := parse_fields k v fs hwx.1 hwx.2.1 hwx.2.2 f f rest hsz hsz hr
      rw [hpf]
termination_by j => sizeOf j
decreasing_by all_goals simp_wf; all_goals omega
/-- The serialized elements of a non-empty array parse back through the
element loop. -/
theorem parse_items : ∀ (x : Json) (xs : JsonList), jsonWF x = true → listWF xs = true →
    ∀ fuel fl rest, jsize x + lsize xs + 1 ≤ fuel → jsize x + lsize xs + 1 ≤ fl →
      restOK rest →
      parseItems (parseJson fuel) fl (dumpJson x ++ (dumpArrTail xs ++ 93 :: rest))
        = some (.cons x xs, rest)
  | x, .nil => by
    intro hwx hwxs fuel fl rest hfu hfl hr
    cases fl with
    | zero =>
      have := jsize_pos x
      omega
    | succ g =>
      have hY : dumpArrTail JsonList.nil ++ 93 :: rest = 93 :: rest := by
        simp [dumpArrTail]
      rw [hY]
      simp only [parseItems]
      rw [parse_dumpJson x hwx fuel (93 :: rest) (by have := jsize_pos x; omega)
        (by simp [restOK])]
      simp only []
      rw [skipWs_not_ws 93 (by omega)]
  | x, .cons x2 xs2 => by
    intro hwx hwxs fuel fl rest hfu hfl hr
    have hw2 : jsonWF x2 = true ∧ listWF xs2 = true := by simpa [listWF] using hwxs
    cases fl with
    | zero =>
      have := jsize_pos x
      omega
    | succ g =>
      have hY : dumpArrTail (JsonList.cons x2 xs2) ++ 93 :: rest
          = 44 :: (32 :: (dumpJson x2 ++ (dumpArrTail xs2 ++ 93 :: rest))) := by
        simp [dumpArrTail]
      rw [hY]
      simp only [parseItems]
      rw [parse_dumpJson x hwx fuel _ (by have := jsize_pos x2; omega) (by simp [restOK])]
      simp only []
      rw [skipWs_not_ws 44 (by omega)]
      simp only []
      have hszu : jsize x2 + lsize xs2 + 1 ≤ fuel := by
        simp [lsize] at hfu
        have := jsize_pos x
        omega
      have hszl : jsize x2 + lsize xs2 + 1 ≤ g := by
        simp [lsize] at hfl
        have := jsize_pos x
        omega
      rw [parseItems_space, parse_items x2 xs2 hw2.1 hw2.2 fuel g rest hszu hszl hr]
termination_by x xs => sizeOf x + sizeOf xs
decreasing_by all_goals simp_wf; all_goals omega
/-- The serialized entries of a non-empty object parse back through the
entry loop. -/
theorem parse_fields : ∀ (k : List Nat) (v : Json) (fs : JsonFields), strWF k = true →
    jsonWF v = true → fieldsWF fs = true →
    ∀ fuel fl rest, jsize v + fsize fs + 1 ≤ fuel → jsize v + fsize fs + 1 ≤ fl →
      restOK rest →
      parseFields (parseJson fuel) fl
          (34 :: (escBody k ++ (58 :: 32 :: (dumpJson v ++ (dumpObjTail fs ++ 125 :: rest)))))
        = some (.cons k v fs, rest)
  | k, v, .nil => by
    intro hwk hwv hwfs fuel fl rest hfu hfl hr
    cases fl with
    | zero =>
      have := jsize_pos v
      omega
    | succ g =>
      simp only [parseFields]
      rw [skipWs_not_ws 34 (by omega)]
      simp only []
      rw [psb_escBody k hwk]
      simp only []
      rw [skipWs_not_ws 58 (by omega)]
      simp only []
      rw [parseJson_space, parse_dumpJson v hwv fuel _ (by have := jsize_pos v; omega)
        (by simp [dumpObjTail, restOK])]
      simp only []
      have h125 : dumpObjTail JsonFields.nil ++ 125 :: rest = 125 :: rest := by
        simp [dumpObjTail]
      rw [h125, skipWs_not_ws 125 (by omega)]
      simp only []
      rw [combine_unitsList k hwk]
  | k, v, .cons k2 v2 fs2 => by
    intro hwk hwv hwfs fuel fl rest hfu hfl hr
    have hw2 : strWF k2 = true ∧ jsonWF v2 = true ∧ fieldsWF fs2 = true := by
      simpa [fieldsWF, and_assoc] using hwfs
    cases fl with
    | zero =>
      have := jsize_pos v
      omega
    | succ g =>
      simp only [parseFields]
      rw [skipWs_not_ws 34 (by omega)]
      simp only []
      rw [psb_escBody k hwk]
      simp only []
      rw [skipWs_not_ws 58 (by omega)]
      simp only []
      rw [parseJson_space, parse_dumpJson v hwv fuel _ (by have := jsize_pos v; omega)
        (by simp [dumpObjTail, restOK])]
      simp only []
      have h44 : dumpObjTail (JsonFields.cons k2 v2 fs2) ++ 125 :: rest
          = 44 :: (32 :: (34 :: (escBody k2
            ++ (58 :: 32 :: (dumpJson v2 ++ (dumpObjTail fs2 ++ 125 :: rest)))))) := by
        simp [dumpObjTail, escapeString]
      rw [h44, skipWs_not_ws 44 (by omega)]
      simp only []
      have hszu : jsize v2 + fsize fs2 + 1 ≤ fuel := by
        simp [fsize] at hfu
        have := jsize_pos v
        omega
      have hszl : jsize v2 + fsize fs2 + 1 ≤ g := by
        simp [fsize] at hfl
        have := jsize_pos v
        omega
      rw [parseFields_space,
        parse_fields k2 v2 fs2 hw2.1 hw2.2.1 hw2.2.2 fuel g rest hszu hszl hr]
      simp only []
      rw [combine_unitsList k hwk]
termination_by k v fs => sizeOf v + sizeOf fs
decreasing_by all_goals simp_wf; all_goals omega
end

/-- `json.loads` inverts `json.dumps` on well-formed values. -/
theorem json_loads_dumps (j : Json) (hwf : jsonWF j = true) :
    json_loads (dumpJson j) = some j := by
  unfold json_loads
  have h := parse_dumpJson j hwf ((dumpJson j).length + 1) [] (by have := jsize_le j; omega)
    (by simp [restOK])
  rw [List.append_nil] at h
  rw [h]
  rfl

/-! ## The serialized JSON text is ASCII -/

/-- Hex digits are ASCII. -/
theorem hexDigit_ascii : ∀ n < 16, hexDigit n < 128 := by decide

/-- Four-hex-digit runs are ASCII. -/
theorem hex4_ascii (n : Nat) : ∀ x ∈ hex4 n, x < 128 := by
  intro x hx
  simp [hex4] at hx
  rcases hx with rfl | rfl | rfl | rfl <;> exact hexDigit_ascii _ (by omega)

set_option maxRecDepth 4096 in
/-- Character escapes emit only ASCII. -/
theorem escapeChar_ascii (c : Nat) : ∀ x ∈ escapeChar c, x < 128 := by
  intro x hx
  unfold escapeChar at hx
  split_ifs at hx with h1 h2 h3 h4 h5 h6 h7 h8 h9
  · simp at hx; omega
  · simp at hx; omega
  · simp at hx; omega
  · simp at hx; omega
  · simp at hx; omega
  · simp at hx; omega
  · simp at hx; omega
  · simp at hx; omega
  · have h2 : x = 92 ∨ x = 117 ∨ x ∈ hex4 c := by simp at hx; tauto
    rcases h2 with rfl | rfl | h2
    · omega
    · omega
    · exact hex4_ascii _ x h2
  · rw [List.mem_append] at hx
    rcases hx with hx | hx
    · simp only [List.mem_cons] at hx
      rcases hx with rfl | rfl | hx
      · omega
      · omega
      · exact hex4_ascii _ x hx
    · simp only [List.mem_cons] at hx
      rcases hx with rfl | rfl | hx
      · omega
      · omega
      · exact hex4_ascii _ x hx

/-- Serialized string bodies are ASCII. -/
theorem escBody_ascii (s : List Nat) : ∀ x ∈ escBody s, x < 128 := by
  induction s with
  | nil => intro x hx; simp [escBody] at hx; omega
  | cons c s ih =>
    intro x hx
    simp only [escBody, List.mem_append] at hx
    rcases hx with hx | hx
    · exact escapeChar_ascii c x hx
    · exact ih x hx

/-- Serialized integers are ASCII. -/
theorem intStr_ascii (i : Int) : ∀ x ∈ intStr i, x < 128 := by
  intro x hx
  unfold intStr at hx
  split_ifs at hx
  · simp at hx
    rcases hx with rfl | hx
    · omega
    · have := natStr_digits _ x hx; omega
  · have := natStr_digits _ x hx; omega

mutual
/-- `json.dumps` output is pure ASCII (`ensure_ascii=True`). -/
theorem dumpJson_ascii : ∀ j : Json, ∀ x ∈ dumpJson j, x < 128
  | .null => by intro x hx; simp [dumpJson] at hx; omega
  | .bool true => by intro x hx; simp [dumpJson] at hx; omega
  | .bool false => by intro x hx; simp [dumpJson] at hx; omega
  | .int i => intStr_ascii i
  | .str s => by
    intro x hx
    have h2 : x = 34 ∨ x ∈ escBody s := by
      simpa [dumpJson, escapeString] using hx
    rcases h2 with rfl | h2
    · omega
    · exact escBody_ascii s x h2
  | .arr .nil => by intro x hx; simp [dumpJson] at hx; omega
  | .arr (.cons y ys) => by
    intro x hx
    have h2 : x = 91 ∨ x ∈ dumpJson y ∨ x ∈ dumpArrTail ys ∨ x = 93 := by
      simp [dumpJson] at hx
      tauto
    rcases h2 with rfl | h2 | h2 | rfl
    · omega
    · exact dumpJson_ascii y x h2
    · exact dumpArrTail_ascii ys x h2
    · omega
  | .obj .nil => by intro x hx; simp [dumpJson] at hx; omega
  | .obj (.cons k v fs) => by
    intro x hx
    have h2 : x = 123 ∨ x = 34 ∨ x ∈ escBody k ∨ x = 58 ∨ x = 32 ∨ x ∈ dumpJson v
        ∨ x ∈ dumpObjTail fs ∨ x = 125 := by
      simp [dumpJson, escapeString] at hx
      tauto
    rcases h2 with rfl | rfl | h2 | rfl | rfl | h2 | h2 | rfl
    · omega
    · omega
    · exact escBody_ascii k x h2
    · omega
    · omega
    · exact dumpJson_ascii v x h2
    · exact dumpObjTail_ascii fs x h2
    · omega
/-- Serialized array tails are ASCII. -/
theorem dumpArrTail_ascii : ∀ xs : JsonList, ∀ x ∈ dumpArrTail xs, x < 128
  | .nil => by intro x hx; simp [dumpArrTail] at hx
  | .cons y ys => by
    intro x hx
    have h2 : x = 44 ∨ x = 32 ∨ x ∈ dumpJson y ∨ x ∈ dumpArrTail ys := by
      simp [dumpArrTail] at hx
      tauto
    rcases h2 with rfl | rfl | h2 | h2
    · omega
    · omega
    · exact dumpJson_ascii y x h2
    · exact dumpArrTail_ascii ys x h2
/-- Serialized object tails are ASCII. -/
theorem dumpObjTail_ascii : ∀ fs : JsonFields, ∀ x ∈ dumpObjTail fs, x < 128
  | .nil => by intro x hx; simp [dumpObjTail] at hx
  | .cons k v fs => by
    intro x hx
    have h2 : x = 44 ∨ x = 32 ∨ x = 34 ∨ x ∈ escBody k ∨ x = 58 ∨ x ∈ dumpJson v
        ∨ x ∈ dumpObjTail fs := by
      simp [dumpObjTail, escapeString] at hx
      tauto
    rcases h2 with rfl | rfl | rfl | h2 | rfl | h2 | h2
    · omega
    · omega
    · omega
    · exact escBody_ascii k x h2
    · omega
    · exact dumpJson_ascii v x h2
    · exact dumpObjTail_ascii fs x h2
end

/-! ## UTF-8 and base64 on ASCII data -/

/-- UTF-8 encoding is the identity on ASCII text. -/
theorem utf8Encode_ascii (s : List Nat) (h : ∀ c ∈ s, c < 128) : utf8Encode s = some s := by
  induction s with
  | nil => rfl
  | cons c cs ih =>
    have hc : c < 128 := h c (by simp)
    simp only [utf8Encode, utf8EncodeChar, hc, if_pos]
    rw [ih (fun x hx => h x (by simp [hx]))]
    rfl

/-- An ASCII byte decodes to itself in one step. -/
theorem utf8Step_ascii (c : Nat) (cs : List Nat) (hc : c < 128) :
    utf8Step c cs = some (c, cs) := by
  unfold utf8Step
  rw [if_pos hc]

/-- The decoding loop is the identity on ASCII bytes, given enough fuel. -/
theorem utf8DecodeGo_ascii : ∀ fuel (s : List Nat), s.length ≤ fuel →
    (∀ c ∈ s, c < 128) → utf8DecodeGo fuel s = some s
  | fuel, [], _, _ => by cases fuel <;> rfl
  | 0, _ :: _, hl, _ => by simp at hl
  | fuel + 1, c :: cs, hl, h => by
    have hc : c < 128 := h c (by simp)
    have hl2 : cs.length ≤ fuel := by simp at hl; omega
    simp only [utf8DecodeGo, utf8Step_ascii c cs hc,
      utf8DecodeGo_ascii fuel cs hl2 (fun x hx => h x (by simp [hx]))]

/-- UTF-8 decoding is the identity on ASCII bytes. -/
theorem utf8Decode_ascii (s : List Nat) (h : ∀ c ∈ s, c < 128) : utf8Decode s = some s :=
  utf8DecodeGo_ascii s.length s (Nat.le_refl _) h

/-- Alphabet characters decode to their value. -/
theorem b64decVal_b64char : ∀ v < 64, b64decVal (b64char v) = some v := by decide

/-- Alphabet characters are ASCII. -/
theorem b64char_ascii : ∀ v < 64, b64char v < 128 := by decide

/-- Alphabet characters are never the padding character. -/
theorem b64char_ne_pad : ∀ v < 64, b64char v ≠ 61 := by decide

/-- Alphabet characters survive the pre-decode filter. -/
theorem b64keep_char : ∀ v < 64, b64keep (b64char v) = true := by decide

/-- Base64 output contains only alphabet and padding characters. -/
theorem b64encode_keep : ∀ bs : List Nat, (∀ b ∈ bs, b < 256) →
    ∀ c ∈ b64encode bs, b64keep c = true
  | [] => by intro _ c hc; simp [b64encode] at hc
  | [b0] => by
    intro h c hc
    have hb0 : b0 < 256 := h b0 (by simp)
    simp only [b64encode] at hc
    simp at hc
    rcases hc with rfl | rfl | rfl
    · exact b64keep_char _ (by omega)
    · exact b64keep_char _ (by omega)
    · rfl
  | [b0, b1] => by
    intro h c hc
    have hb0 : b0 < 256 := h b0 (by simp)
    have hb1 : b1 < 256 := h b1 (by simp)
    simp only [b64encode] at hc
    simp at hc
    rcases hc with rfl | rfl | rfl | rfl
    · exact b64keep_char _ (by omega)
    · exact b64keep_char _ (by omega)
    · exact b64keep_char _ (by omega)
    · rfl
  | b0 :: b1 :: b2 :: rest => by
    intro h c hc
    have hb0 : b0 < 256 := h b0 (by simp)
    have hb1 : b1 < 256 := h b1 (by simp)
    have hb2 : b2 < 256 := h b2 (by simp)
    simp only [b64encode, List.mem_cons] at hc
    rcases hc with rfl | rfl | rfl | rfl | hc
    · exact b64keep_char _ (by omega)
    · exact b64keep_char _ (by omega)
    · exact b64keep_char _ (by omega)
    · exact b64keep_char _ (by omega)
    · exact b64encode_keep rest (fun b hb => h b (by simp [hb])) c hc

/-- Base64 output is ASCII. -/
theorem b64encode_ascii : ∀ bs : List Nat, (∀ b ∈ bs, b < 256) →
    ∀ c ∈ b64encode bs, c < 128
  | [] => by intro _ c hc; simp [b64encode] at hc
  | [b0] => by
    intro h c hc
    have hb0 : b0 < 256 := h b0 (by simp)
    simp only [b64encode] at hc
    simp at hc
    rcases hc with rfl | rfl | rfl
    · exact b64char_ascii _ (by omega)
    · exact b64char_ascii _ (by omega)
    · omega
  | [b0, b1] => by
    intro h c hc
    have hb0 : b0 < 256 := h b0 (by simp)
    have hb1 : b1 < 256 := h b1 (by simp)
    simp only [b64encode] at hc
    simp at hc
    rcases hc with rfl | rfl | rfl | rfl
    · exact b64char_ascii _ (by omega)
    · exact b64char_ascii _ (by omega)
    · exact b64char_ascii _ (by omega)
    · omega
  | b0 :: b1 :: b2 :: rest => by
    intro h c hc
    have hb0 : b0 < 256 := h b0 (by simp)
    have hb1 : b1 < 256 := h b1 (by simp)
    have hb2 : b2 < 256 := h b2 (by simp)
    simp only [b64encode, List.mem_cons] at hc
    rcases hc with rfl | rfl | rfl | rfl | hc
    · exact b64char_ascii _ (by omega)
    · exact b64char_ascii _ (by omega)
    · exact b64char_ascii _ (by omega)
    · exact b64char_ascii _ (by omega)
    · exact b64encode_ascii rest (fun b hb => h b (by simp [hb])) c hc

/-- Base64 decoding inverts base64 encoding. -/
theorem b64_roundtrip : ∀ bs : List Nat, (∀ b ∈ bs, b < 256) →
    b64decodeStrict (b64encode bs) = some bs
  | [] => fun _ => rfl
  | [b0] => by
    intro h
    have hb0 : b0 < 256 := h b0 (by simp)
    show b64decodeStrict [b64char (b0 / 4), b64char (b0 % 4 * 16), 61, 61] = some [b0]
    simp only [b64decodeStrict]
    rw [if_pos (by simp)]
    rw [b64decVal_b64char _ (by omega), b64decVal_b64char _ (by omega)]
    simp only []
    have : b0 / 4 * 4 + b0 % 4 * 16 / 16 = b0 := by omega
    rw [this]
  | [b0, b1] => by
    intro h
    have hb0 : b0 < 256 := h b0 (by simp)
    have hb1 : b1 < 256 := h b1 (by simp)
    show b64decodeStrict
        [b64char (b0 / 4), b64char (b0 % 4 * 16 + b1 / 16), b64char (b1 % 16 * 4), 61]
      = some [b0, b1]
    simp only [b64decodeStrict]
    rw [if_neg (fun hcon => b64char_ne_pad (b1 % 16 * 4) (by omega) hcon.1)]
    rw [if_pos (by simp)]
    rw [b64decVal_b64char _ (by omega), b64decVal_b64char _ (by omega),
      b64decVal_b64char _ (by omega)]
    simp only []
    have h1 : b0 / 4 * 4 + (b0 % 4 * 16 + b1 / 16) / 16 = b0 := by omega
    have h2 : (b0 % 4 * 16 + b1 / 16) % 16 * 16 + b1 % 16 * 4 / 4 = b1 := by omega
    rw [h1, h2]
  | b0 :: b1 :: b2 :: rest => by
    intro h
    have hb0 : b0 < 256 := h b0 (by simp)
    have hb1 : b1 < 256 := h b1 (by simp)
    have hb2 : b2 < 256 := h b2 (by simp)
    show b64decodeStrict (b64char (b0 / 4) :: b64char (b0 % 4 * 16 + b1 / 16)
        :: b64char (b1 % 16 * 4 + b2 / 64) :: b64char (b2 % 64) :: b64encode rest)
      = some (b0 :: b1 :: b2 :: rest)
    simp only [b64decodeStrict]
    rw [if_neg (fun hcon => b64char_ne_pad (b1 % 16 * 4 + b2 / 64) (by omega) hcon.1)]
    rw [if_neg (fun hcon => b64char_ne_pad (b2 % 64) (by omega) hcon.1)]
    rw [b64decVal_b64char _ (by omega), b64decVal_b64char _ (by omega),
      b64decVal_b64char _ (by omega), b64decVal_b64char _ (by omega)]
    simp only []
    rw [b64_roundtrip rest (fun b hb => h b (by simp [hb]))]
    simp only []
    have h1 : b0 / 4 * 4 + (b0 % 4 * 16 + b1 / 16) / 16 = b0 := by omega
    have h2 : (b0 % 4 * 16 + b1 / 16) % 16 * 16 + (b1 % 16 * 4 + b2 / 64) / 4 = b1 := by
      omega
    have h3 : (b1 % 16 * 4 + b2 / 64) % 4 * 64 + b2 % 64 = b2 := by omega
    rw [h1, h2, h3]

/-- C9: the pagination token codec round-trips.  For every JSON-serializable
mapping `m` — well-formed in that its strings are sequences of Unicode scalar
values — including the empty mapping, `encode_pagination_token` succeeds and
`decode_pagination_token` applied to the produced token returns exactly the
object `m`. -/
theorem pagination_roundtrip (m : JsonFields) (h : fieldsWF m = true) :
    ∃ tok, encode_pagination_token m = some tok ∧
      decode_pagination_token tok = Except.ok (Json.obj m) := by
  have hwf : jsonWF (Json.obj m) = true := by simp [jsonWF, h]
  have hasc : ∀ x ∈ dumpJson (Json.obj m), x < 128 := dumpJson_ascii _
  have h256 : ∀ x ∈ dumpJson (Json.obj m), x < 256 := fun x hx => by
    have := hasc x hx; omega
  have htok : ∀ c ∈ b64encode (dumpJson (Json.obj m)), c < 128 :=
    b64encode_ascii _ h256
  refine ⟨b64encode (dumpJson (Json.obj m)), ?_, ?_⟩
  · unfold encode_pagination_token
    rw [utf8Encode_ascii _ hasc]
    simp only []
    exact utf8Decode_ascii _ htok
  · unfold decode_pagination_token
    rw [utf8Encode_ascii _ htok]
    simp only []
    unfold b64decode
    rw [List.filter_eq_self.mpr (fun c hc => b64encode_keep _ h256 c hc)]
    rw [b64_roundtrip _ h256]
    simp only []
    rw [utf8Decode_ascii _ hasc]
    simp only []
    rw [json_loads_dumps _ hwf]

/-- C9 witness: the empty mapping is well-formed, encodes to the token
`"e30="` and decodes back to the empty object. -/
theorem pagination_roundtrip_witness :
    fieldsWF JsonFields.nil = true ∧
      ∃ tok, encode_pagination_token JsonFields.nil = some tok ∧
        decode_pagination_token tok = Except.ok (Json.obj JsonFields.nil) :=
  ⟨by decide, pagination_roundtrip JsonFields.nil (by decide)⟩

end JscomCommon
